import Mathlib

/-!
Verification of the mdm-gcp matching-and-merge engine.

This file is a shallow embedding of the core entity-resolution logic of the
repository: the record standardizer (`streaming_processor.standardize_record`
and the generated BigQuery standardization SQL), the four matching strategies,
the score combiner and decision thresholds, the deterministic entity-id rule,
the streaming create-or-merge store operations, and the batch clustering SQL.

Conventions of the embedding:
* Strings are lists of character codes (`Str := List Nat`); the repository's
  data is ASCII, and the Python/BigQuery character classes (`[^a-zA-Z\s]`,
  `[^0-9]`, upper/lower case, whitespace) are modelled on ASCII codes.
* Python `None` / SQL `NULL` is `Option.none`; Python truthiness of strings
  (where the empty string is falsy) is `truthyOpt`, while the SQL `IS NOT NULL`
  test is `Option.isSome` -- the two are deliberately distinct.
* Floating point scores are modelled as rationals (`ℚ`); every comparison the
  code performs is exact at the values involved.
* `hashlib.sha256` / BigQuery `SHA256` is implemented in full (`sha256Bytes`),
  over UTF-8 bytes, with hex output, so the deterministic-id rule is embedded
  end to end.
* Randomness (`uuid.uuid4()`) is modelled by an explicit `freshId` argument.
* Spanner / BigQuery tables are lists of rows; a query is a pure function of
  that list.  `list(set(...))` in Python (unspecified order) is modelled as
  first-occurrence deduplication.
-/

namespace Mdm

/-- Strings as lists of character codes. -/
abbrev Str := List Nat

/-- Character codes of a Lean string literal (used for concrete inputs). -/
def toCodes (s : String) : Str := s.data.map Char.toNat

/-- ASCII whitespace, the characters matched by Python `\s` and stripped by
`str.strip()` / BigQuery `TRIM` on the repository's data. -/
def isSpaceCode (n : Nat) : Bool :=
  n == 32 || n == 9 || n == 10 || n == 11 || n == 12 || n == 13

/-- Lower-case ASCII letter `[a-z]`. -/
def isLowerCode (n : Nat) : Bool := 97 ≤ n && n ≤ 122

/-- Upper-case ASCII letter `[A-Z]`. -/
def isUpperCode (n : Nat) : Bool := 65 ≤ n && n ≤ 90

/-- ASCII letter `[a-zA-Z]`. -/
def isAlphaCode (n : Nat) : Bool := isUpperCode n || isLowerCode n

/-- ASCII digit `[0-9]`. -/
def isDigitCode (n : Nat) : Bool := 48 ≤ n && n ≤ 57

/-- Regex word character `\w` = `[A-Za-z0-9_]`, the class that delimits the
`\b` word boundaries used by the address substitutions. -/
def isWordCode (n : Nat) : Bool := isAlphaCode n || isDigitCode n || n == 95

/-- `str.upper()` on one ASCII character code. -/
def upperCode (n : Nat) : Nat := if isLowerCode n then n - 32 else n

/-- `str.lower()` on one ASCII character code. -/
def lowerCode (n : Nat) : Nat := if isUpperCode n then n + 32 else n

/-- Python `str.upper()` / BigQuery `UPPER`. -/
def pyUpper (l : Str) : Str := l.map upperCode

/-- Python `str.lower()` / BigQuery `LOWER`. -/
def pyLower (l : Str) : Str := l.map lowerCode

/-- Python `str.strip()` / BigQuery `TRIM`: drop leading and trailing
whitespace. -/
def pyStrip (l : Str) : Str :=
  ((l.dropWhile isSpaceCode).reverse.dropWhile isSpaceCode).reverse

/-- Truthiness of an optional string in Python: absent (`None`) and the empty
string are falsy. -/
def truthyOpt (o : Option Str) : Bool :=
  match o with
  | none => false
  | some s => !s.isEmpty

/-!  Word-boundary substitution.

`re.sub(r'\bSTREET\b', 'ST', addr)` (and BigQuery
`REGEXP_REPLACE(addr, r'\bSTREET\b', 'ST')`) replaces every occurrence of the
pattern that is delimited by `\b` word boundaries.  All five patterns consist
purely of word characters, so an occurrence is delimited by word boundaries
exactly when it is a maximal run of word characters.  The embedding therefore
splits a string into maximal runs of word / non-word characters (`tokenize`)
and replaces the runs equal to the pattern (`replaceWord`). -/

/-- Split a string into maximal runs of characters of equal word-character
class (the runs between `\b` word boundaries). -/
def tokenize : Str → List Str
  | [] => []
  | c :: cs =>
    match tokenize cs with
    | [] => [[c]]
    | t :: ts =>
      if isWordCode c == isWordCode (t.headD 0) then (c :: t) :: ts
      else [c] :: t :: ts

/-- Replace every maximal word-character run equal to `pat` by `rep`: the
embedding of `re.sub(r'\b<pat>\b', <rep>, s)` for an all-word-character
pattern. -/
def replaceWord (pat rep : Str) (l : Str) : Str :=
  ((tokenize l).map (fun t => if t == pat then rep else t)).flatten

/-- The five whole-word address abbreviations, applied in source order:
STREET→ST, AVENUE→AVE, BOULEVARD→BLVD, ROAD→RD, DRIVE→DR. -/
def addressSubs (l : Str) : Str :=
  replaceWord (toCodes "DRIVE") (toCodes "DR")
    (replaceWord (toCodes "ROAD") (toCodes "RD")
      (replaceWord (toCodes "BOULEVARD") (toCodes "BLVD")
        (replaceWord (toCodes "AVENUE") (toCodes "AVE")
          (replaceWord (toCodes "STREET") (toCodes "ST") l))))

/-!  Field standardizers, streaming path (`standardize_record`). -/

/-- `re.sub(r'[^a-zA-Z\s]', '', full_name).strip().upper()`. -/
def nameClean (l : Str) : Str :=
  pyUpper (pyStrip (l.filter (fun c => isAlphaCode c || isSpaceCode c)))

/-- `email.lower().strip()`. -/
def emailClean (l : Str) : Str := pyStrip (pyLower l)

/-- `re.sub(r'[^0-9]', '', phone)`. -/
def phoneClean (l : Str) : Str := l.filter isDigitCode

/-- `address.upper().strip()` followed by the five whole-word abbreviation
substitutions. -/
def addressClean (l : Str) : Str := addressSubs (pyStrip (pyUpper l))

/-- `city.upper().strip()` (also used for `state`). -/
def cityClean (l : Str) : Str := pyStrip (pyUpper l)

/-!  Field standardizers, batch path (`generate_standardization_sql`).
The generated SQL applies the same primitives in a different order: the
abbreviation substitutions run on the raw (not yet upper-cased) address, and
`TRIM(UPPER(...))` is applied outermost. -/

/-- `TRIM(UPPER(REGEXP_REPLACE(full_name, r'[^a-zA-Z\s]', '')))`. -/
def sqlNameClean (l : Str) : Str :=
  pyStrip (pyUpper (l.filter (fun c => isAlphaCode c || isSpaceCode c)))

/-- `LOWER(TRIM(email))`. -/
def sqlEmailClean (l : Str) : Str := pyLower (pyStrip l)

/-- `REGEXP_REPLACE(phone, r'[^0-9]', '')`. -/
def sqlPhoneClean (l : Str) : Str := l.filter isDigitCode

/-- `TRIM(UPPER(<five nested REGEXP_REPLACE abbreviations>(address)))`:
the substitutions are applied to the raw address, before upper-casing. -/
def sqlAddressClean (l : Str) : Str := pyStrip (pyUpper (addressSubs l))

/-- `TRIM(UPPER(city))` (also used for `state`). -/
def sqlCityClean (l : Str) : Str := pyStrip (pyUpper l)

/-!  SHA-256.

`generate_deterministic_entity_id` hashes with `hashlib.sha256(s.encode())`
(UTF-8 input, lower-case hex output) and the batch SQL with
`TO_HEX(SHA256(CONCAT(...)))` (UTF-8 input, lower-case hex output).  The
algorithm is embedded in full over `Nat` words reduced mod `2^32`. -/

/-- UTF-8 encoding of a list of Unicode code points (identity on ASCII). -/
def utf8Encode (l : Str) : List Nat :=
  l.flatMap (fun c =>
    if c < 0x80 then [c]
    else if c < 0x800 then [0xc0 + c / 64, 0x80 + c % 64]
    else if c < 0x10000 then
      [0xe0 + c / 4096, 0x80 + c / 64 % 64, 0x80 + c % 64]
    else
      [0xf0 + c / 262144, 0x80 + c / 4096 % 64, 0x80 + c / 64 % 64,
       0x80 + c % 64])

/-- Addition of 32-bit words. -/
def add32 (a b : Nat) : Nat := (a + b) % 4294967296

/-- Right rotation of a 32-bit word by `n` bits. -/
def rotr32 (n x : Nat) : Nat :=
  Nat.lor (x >>> n) ((x <<< (32 - n)) % 4294967296)

/-- Bitwise complement of a 32-bit word. -/
def not32 (x : Nat) : Nat := Nat.xor x 4294967295

/-- SHA-256 round constants (fractional parts of the cube roots of the first
64 primes). -/
def sha256K : List Nat :=
  [1116352408, 1899447441, 3049323471, 3921009573,
   961987163, 1508970993, 2453635748, 2870763221,
   3624381080, 310598401, 607225278, 1426881987,
   1925078388, 2162078206, 2614888103, 3248222580,
   3835390401, 4022224774, 264347078, 604807628,
   770255983, 1249150122, 1555081692, 1996064986,
   2554220882, 2821834349, 2952996808, 3210313671,
   3336571891, 3584528711, 113926993, 338241895,
   666307205, 773529912, 1294757372, 1396182291,
   1695183700, 1986661051, 2177026350, 2456956037,
   2730485921, 2820302411, 3259730800, 3345764771,
   3516065817, 3600352804, 4094571909, 275423344,
   430227734, 506948616, 659060556, 883997877,
   958139571, 1322822218, 1537002063, 1747873779,
   1955562222, 2024104815, 2227730452, 2361852424,
   2428436474, 2756734187, 3204031479, 3329325298]

/-- The eight-word SHA-256 chaining state. -/
structure Sha256State where
  a : Nat
  b : Nat
  c : Nat
  d : Nat
  e : Nat
  f : Nat
  g : Nat
  h : Nat

/-- SHA-256 initial hash value (fractional parts of the square roots of the
first 8 primes). -/
def sha256Init : Sha256State :=
  ⟨1779033703, 3144134277, 1013904242, 2773480762,
   1359893119, 2600822924, 528734635, 1541459225⟩

/-- Message padding: append `0x80`, zero bytes to 56 mod 64, then the bit
length as an 8-byte big-endian integer. -/
def sha256Pad (msg : List Nat) : List Nat :=
  let padLen := (64 + 56 - (msg.length + 1) % 64) % 64
  let bitLen := msg.length * 8
  msg ++ [0x80] ++ List.replicate padLen 0 ++
    ((List.range 8).map (fun i => bitLen >>> (8 * (7 - i)) % 256))

/-- Split a list into chunks of `size` elements (structural recursion, so the
kernel can evaluate it): `acc` holds the current chunk reversed, `rem` the
number of free slots left in it. -/
def chunkAux (size : Nat) : List Nat → List Nat → Nat → List (List Nat)
  | [], acc, _ => if acc.isEmpty then [] else [acc.reverse]
  | c :: cs, acc, rem =>
    if rem ≤ 1 then (c :: acc).reverse :: chunkAux size cs [] size
    else chunkAux size cs (c :: acc) (rem - 1)

/-- Split a byte list into 64-byte blocks. -/
def sha256Blocks (l : List Nat) : List (List Nat) := chunkAux 64 l [] 64

/-- Big-endian assembly of bytes into a word. -/
def bytesToWord (l : List Nat) : Nat := l.foldl (fun acc b => acc * 256 + b) 0

/-- Split a block into 4-byte groups (its 16 message words). -/
def wordChunks (l : List Nat) : List (List Nat) := chunkAux 4 l [] 4

/-- One step of the message-schedule extension: append
`σ1(w[t-2]) + w[t-7] + σ0(w[t-15]) + w[t-16]`. -/
def scheduleStep (w : List Nat) : List Nat :=
  let n := w.length
  let s0 :=
    let x := w.getD (n - 15) 0
    Nat.xor (Nat.xor (rotr32 7 x) (rotr32 18 x)) (x >>> 3)
  let s1 :=
    let x := w.getD (n - 2) 0
    Nat.xor (Nat.xor (rotr32 17 x) (rotr32 19 x)) (x >>> 10)
  w ++ [add32 (add32 (w.getD (n - 16) 0) s0) (add32 (w.getD (n - 7) 0) s1)]

/-- The 64-word message schedule of one block. -/
def sha256Schedule (block : List Nat) : List Nat :=
  scheduleStep^[48] ((wordChunks block).map bytesToWord)

/-- One SHA-256 compression round. -/
def sha256Round (st : Sha256State) (kw : Nat × Nat) : Sha256State :=
  let S1 := Nat.xor (Nat.xor (rotr32 6 st.e) (rotr32 11 st.e)) (rotr32 25 st.e)
  let ch := Nat.xor (Nat.land st.e st.f) (Nat.land (not32 st.e) st.g)
  let t1 := add32 (add32 (add32 st.h S1) (add32 ch kw.1)) kw.2
  let S0 := Nat.xor (Nat.xor (rotr32 2 st.a) (rotr32 13 st.a)) (rotr32 22 st.a)
  let maj := Nat.xor (Nat.xor (Nat.land st.a st.b) (Nat.land st.a st.c))
    (Nat.land st.b st.c)
  let t2 := add32 S0 maj
  ⟨add32 t1 t2, st.a, st.b, st.c, add32 st.d t1, st.e, st.f, st.g⟩

/-- Compress one 64-byte block into the chaining state. -/
def sha256Compress (st : Sha256State) (block : List Nat) : Sha256State :=
  let w := sha256Schedule block
  let r := (sha256K.zip w).foldl sha256Round st
  ⟨add32 st.a r.a, add32 st.b r.b, add32 st.c r.c, add32 st.d r.d,
   add32 st.e r.e, add32 st.f r.f, add32 st.g r.g, add32 st.h r.h⟩

/-- Big-endian bytes of a 32-bit word. -/
def wordBytes (w : Nat) : List Nat :=
  [w >>> 24 % 256, w >>> 16 % 256, w >>> 8 % 256, w % 256]

/-- SHA-256 digest (32 bytes) of a byte message. -/
def sha256Bytes (msg : List Nat) : List Nat :=
  let st := (sha256Blocks (sha256Pad msg)).foldl sha256Compress sha256Init
  wordBytes st.a ++ wordBytes st.b ++ wordBytes st.c ++ wordBytes st.d ++
    wordBytes st.e ++ wordBytes st.f ++ wordBytes st.g ++ wordBytes st.h

/-- Lower-case hex character code of a nibble. -/
def hexDigit (n : Nat) : Nat := if n < 10 then 48 + n else 87 + n

/-- Lower-case hex string (as character codes) of a byte list, as produced by
Python `hexdigest()` and BigQuery `TO_HEX`. -/
def bytesToHex (l : List Nat) : Str :=
  l.flatMap (fun b => [hexDigit (b / 16), hexDigit (b % 16)])

/-- `hashlib.sha256(s.encode()).hexdigest()[:36]`, equally
`SUBSTR(TO_HEX(SHA256(s)), 1, 36)`: the truncated hash used for deterministic
entity ids. -/
def truncatedHash (s : Str) : Str := (bytesToHex (sha256Bytes (utf8Encode s))).take 36

/-!  Standardized records.

The streaming processor passes records as dicts; the fields the matching and
store logic reads are modelled as a structure of optional strings (`none` =
key absent or `None`). -/

/-- The standardized view of a streaming record: the fields read by the
matching strategies and the store operations. -/
structure StdRecord where
  recordId : Option Str := none
  sourceSystem : Option Str := none
  fullNameClean : Option Str := none
  emailClean : Option Str := none
  phoneClean : Option Str := none
  addressClean : Option Str := none
  cityClean : Option Str := none
  stateClean : Option Str := none
  company : Option Str := none
  annualIncome : Option Int := none
  customerSegment : Option Str := none
deriving DecidableEq

/-!  Levenshtein distance and string similarity
(`calculate_string_similarity`).  The source fills the standard dynamic
programming matrix; the embedding uses the recurrence that matrix computes,
driven by a fuel argument so that the kernel can evaluate it (the fuel
`s.length + t.length` is exactly the recursion depth needed). -/

/-- The Levenshtein recurrence with explicit fuel.  The `0`-fuel fallback is
never reached when the fuel is at least `s.length + t.length`; it is chosen
as `max s.length t.length` so that the distance bound holds for every fuel. -/
def levAux : Nat → Str → Str → Nat
  | _, [], t => t.length
  | _, s, [] => s.length
  | 0, s, t => max s.length t.length
  | fuel + 1, a :: s, b :: t =>
    if a == b then levAux fuel s t
    else 1 + min (levAux fuel (a :: s) t)
      (min (levAux fuel s (b :: t)) (levAux fuel s t))

/-- Levenshtein edit distance, as computed by the matrix in
`calculate_string_similarity` and by BigQuery `EDIT_DISTANCE`. -/
def levenshtein (s t : Str) : Nat := levAux (s.length + t.length) s t

/-- `calculate_string_similarity`: `0.0` when either string is empty, else
`max(0.0, 1 - edit_distance / max(len1, len2))`. -/
def calculateStringSimilarity (s t : Str) : ℚ :=
  if s.isEmpty || t.isEmpty then 0
  else max 0 (1 - (levenshtein s t : ℚ) / (max s.length t.length : ℚ))

/-- Per-candidate fuzzy score in `find_fuzzy_matches`: the name similarity
against `master_name` (`NULL` read back as `''`), the address similarity when
both the record's clean address and `master_address` are truthy, combined as
`max(name_score, address_score)`. -/
def fuzzyRowScore (r : StdRecord) (masterName masterAddress : Option Str) :
    ℚ :=
  let mn := masterName.getD []
  let ma := masterAddress.getD []
  let nameScore := calculateStringSimilarity (r.fullNameClean.getD []) mn
  let addressScore :=
    if truthyOpt r.addressClean && !ma.isEmpty then
      calculateStringSimilarity (r.addressClean.getD []) ma
    else 0
  max nameScore addressScore

/-- `find_fuzzy_matches` over the candidate rows
`(entity_id, master_name, master_address)` returned by the prefix query:
empty unless the record has a truthy clean name, and keeps candidates whose
combined fuzzy score exceeds `0.6`. -/
def findFuzzyMatches (r : StdRecord)
    (rows : List (Str × Option Str × Option Str)) :
    List (Str × ℚ × String) :=
  if !truthyOpt r.fullNameClean then []
  else rows.filterMap (fun row =>
    let f := fuzzyRowScore r row.2.1 row.2.2
    if 3/5 < f then some (row.1, f, "fuzzy") else none)

/-!  Batch fuzzy matching (`generate_fuzzy_matching_sql`). -/

/-- Soundex digit of an upper-case letter code (`0` marks the vowels and the
letters `H`, `W`, `Y` that produce no digit). -/
def soundexCode (c : Nat) : Nat :=
  if c == 66 || c == 70 || c == 80 || c == 86 then 1
  else if c == 67 || c == 71 || c == 74 || c == 75 || c == 81 || c == 83 ||
    c == 88 || c == 90 then 2
  else if c == 68 || c == 84 then 3
  else if c == 76 then 4
  else if c == 77 || c == 78 then 5
  else if c == 82 then 6
  else 0

/-- Digit collection of American Soundex: `H` and `W` are transparent,
vowels reset the previous digit, repeated digits collapse. -/
def soundexGo : List Nat → Nat → List Nat
  | [], _ => []
  | c :: cs, prev =>
    if c == 72 || c == 87 then soundexGo cs prev
    else
      let d := soundexCode c
      if d == 0 then soundexGo cs 0
      else if d == prev then soundexGo cs prev
      else d :: soundexGo cs d

/-- Modelled from BigQuery `SOUNDEX`: American Soundex of the letters of the
string (non-letter characters ignored), as a letter followed by three
digits. -/
def soundex (l : Str) : Str :=
  match (pyUpper l).filter isAlphaCode with
  | [] => []
  | c :: rest =>
    let digits :=
      ((soundexGo rest (soundexCode c)).take 3 ++ List.replicate 3 0).take 3
    c :: digits.map (fun d => 48 + d)

/-- `1.0 - EDIT_DISTANCE(a, b) / GREATEST(LENGTH(a), LENGTH(b))` when both
names are non-`NULL`, else `0.0`. -/
def nameEditDistanceScore (a b : Option Str) : ℚ :=
  match a, b with
  | some x, some y =>
    1 - (levenshtein x y : ℚ) / (max x.length y.length : ℚ)
  | _, _ => 0

/-- `0.8` when the two Soundex codes are equal and `a` is non-`NULL` (a
`NULL` `b` makes the SQL comparison `NULL`, hence `0.0`), else `0.0`. -/
def nameSoundexScore (a b : Option Str) : ℚ :=
  match a, b with
  | some x, some y => if soundex x == soundex y then 4/5 else 0
  | _, _ => 0

/-- Count of tokens of `a` appearing among the tokens of `b`, divided by the
larger token count (`SPLIT` on a single space). -/
def nameTokenScore (a b : Option Str) : ℚ :=
  match a, b with
  | some x, some y =>
    let ta := x.splitOn 32
    let tb := y.splitOn 32
    ((ta.filter (fun t => tb.contains t)).length : ℚ) /
      (max ta.length tb.length : ℚ)
  | _, _ => 0

/-- `address_edit_distance_score`: the same edit-distance formula on the
cleaned addresses. -/
def addressEditDistanceScore (a b : Option Str) : ℚ :=
  nameEditDistanceScore a b

/-- `name_fuzzy_score = GREATEST(name_edit_distance_score,
name_soundex_score, name_token_score)`. -/
def nameFuzzyScore (a b : Option Str) : ℚ :=
  max (max (nameEditDistanceScore a b) (nameSoundexScore a b))
    (nameTokenScore a b)

/-- `fuzzy_overall_score = (name_fuzzy_score + address_edit_distance_score)
/ 2`. -/
def fuzzyOverallScore (nameA nameB addrA addrB : Option Str) : ℚ :=
  (nameFuzzyScore nameA nameB + addressEditDistanceScore addrA addrB) / 2

/-!  Deterministic entity ids (`generate_deterministic_entity_id`, and step 7
of `generate_golden_record_sql`). -/

/-- `generate_deterministic_entity_id`: a matched entity keeps its id; else
hash of `"email:" + email_clean` if truthy, else hash of
`"phone:" + phone_clean` if truthy, else a fresh random id (`uuid.uuid4()`,
modelled by the explicit `freshId`).  The Python guards are truthiness tests,
so an empty-string field falls through. -/
def generateDeterministicEntityId (r : StdRecord) (matched : Option Str)
    (freshId : Str) : Str :=
  if truthyOpt matched then matched.getD []
  else if truthyOpt r.emailClean then
    truncatedHash (toCodes "email:" ++ r.emailClean.getD [])
  else if truthyOpt r.phoneClean then
    truncatedHash (toCodes "phone:" ++ r.phoneClean.getD [])
  else freshId

/-- The `master_id` CASE of `generate_golden_record_sql`: hash of the email
when `master_email IS NOT NULL`, else hash of the phone when
`master_phone IS NOT NULL`, else the cluster id.  The SQL guards are
`IS NOT NULL` tests, not truthiness. -/
def batchMasterId (masterEmail masterPhone : Option Str) (clusterId : Str) :
    Str :=
  match masterEmail with
  | some e => truncatedHash (toCodes "email:" ++ e)
  | none =>
    match masterPhone with
    | some p => truncatedHash (toCodes "phone:" ++ p)
    | none => clusterId

/-!  The golden-entity store (Spanner `golden_entities`), modelled as a list
of rows. -/

/-- A row of `golden_entities` (the columns the streaming processor reads or
writes). -/
structure GoldenEntity where
  entityId : Str
  sourceRecordIds : List Str := []
  sourceSystems : List Str := []
  sourceRecordCount : Nat := 0
  masterName : Option Str := none
  masterEmail : Option Str := none
  masterPhone : Option Str := none
  masterAddress : Option Str := none
  masterCity : Option Str := none
  masterState : Option Str := none
  masterCompany : Option Str := none
  masterIncome : Option Int := none
  masterSegment : Option Str := none
  embedding : List ℚ := []
  confidenceScore : ℚ := 0
  processingPath : String := ""
deriving DecidableEq

/-- The store state: the rows of `golden_entities`. -/
abbrev EntityStore := List GoldenEntity

/-- `SELECT ... FROM golden_entities WHERE entity_id = @entity_id`. -/
def lookupEntity (st : EntityStore) (eid : Str) : Option GoldenEntity :=
  st.find? (fun g => g.entityId == eid)

/-- `UPDATE golden_entities SET ... WHERE entity_id = @entity_id`. -/
def replaceEntity (st : EntityStore) (eid : Str) (g' : GoldenEntity) :
    EntityStore :=
  st.map (fun g => if g.entityId == eid then g' else g)

/-- Python `a or b` on optional strings: the left value wins when truthy
(non-`None` and non-empty), else the right. -/
def pyOr (a b : Option Str) : Option Str := if truthyOpt a then a else b

/-- SQL `COALESCE(a, b)`: the left value wins when non-`NULL` (an empty
string is non-`NULL`), else the right. -/
def sqlCoalesce (a b : Option Str) : Option Str := if a.isSome then a else b

/-- Python `list(set(l))`: the distinct elements, in unspecified order,
modelled as first-occurrence order. -/
def pySetList (l : List Str) : List Str := l.eraseDups

/-- `create_new_golden_record`: compute the deterministic id, then one
transaction that merges into the existing row if the id is present
(append the source record id, union the source systems, bump the count,
`COALESCE(incoming, existing)` on the master fields, `processing_path =
'stream_updated'`) and inserts a fresh row otherwise (confidence `0.8`,
`processing_path = 'stream'`).  Returns the id and the new store. -/
def createNewGoldenRecord (r : StdRecord) (emb : List ℚ) (freshId : Str)
    (st : EntityStore) : Str × EntityStore :=
  let eid := generateDeterministicEntityId r none freshId
  match lookupEntity st eid with
  | some g =>
    let g' : GoldenEntity :=
      { g with
        sourceRecordIds := g.sourceRecordIds ++ [r.recordId.getD eid]
        sourceSystems :=
          pySetList (g.sourceSystems ++ [r.sourceSystem.getD (toCodes "unknown")])
        sourceRecordCount := g.sourceRecordCount + 1
        masterName := sqlCoalesce r.fullNameClean g.masterName
        masterEmail := sqlCoalesce r.emailClean g.masterEmail
        masterPhone := sqlCoalesce r.phoneClean g.masterPhone
        masterAddress := sqlCoalesce r.addressClean g.masterAddress
        masterCity := sqlCoalesce r.cityClean g.masterCity
        masterState := sqlCoalesce r.stateClean g.masterState
        masterCompany := sqlCoalesce r.company g.masterCompany
        embedding := emb
        processingPath := "stream_updated" }
    (eid, replaceEntity st eid g')
  | none =>
    (eid, st ++ [{
      entityId := eid
      sourceRecordIds := [r.recordId.getD eid]
      sourceRecordCount := 1
      sourceSystems := [r.sourceSystem.getD (toCodes "unknown")]
      masterName := r.fullNameClean
      masterEmail := r.emailClean
      masterPhone := r.phoneClean
      masterAddress := r.addressClean
      masterCity := r.cityClean
      masterState := r.stateClean
      masterCompany := r.company
      masterIncome := r.annualIncome
      masterSegment := r.customerSegment
      embedding := emb
      confidenceScore := 4/5
      processingPath := "stream" }])

/-- `update_golden_record`: read the current row (the source indexes into the
result and raises when the row is absent, hence `Option`), apply the
survivorship assignments `incoming or existing` (Python truthiness) on
name/email/phone/address, append the source record id, union the source
systems, bump the count. -/
def updateGoldenRecord (eid : Str) (r : StdRecord) (emb : List ℚ)
    (st : EntityStore) : Option (Str × EntityStore) :=
  match lookupEntity st eid with
  | none => none
  | some g =>
    let g' : GoldenEntity :=
      { g with
        masterName := pyOr r.fullNameClean g.masterName
        masterEmail := pyOr r.emailClean g.masterEmail
        masterPhone := pyOr r.phoneClean g.masterPhone
        masterAddress := pyOr r.addressClean g.masterAddress
        sourceRecordIds := g.sourceRecordIds ++ [r.recordId.getD eid]
        sourceSystems :=
          pySetList (g.sourceSystems ++ [r.sourceSystem.getD (toCodes "unknown")])
        sourceRecordCount := g.sourceRecordCount + 1
        embedding := emb }
    some (eid, replaceEntity st eid g')

/-!  The four streaming matching strategies.  Each returns a list of
`(entity_id, score, match_type)` triples. -/

/-- `find_exact_matches`: entities whose `master_email` equals the clean
email (score `1.0`), plus entities whose `master_phone` equals the clean
phone (score `1.0`); each query runs only when the record's field is
truthy. -/
def findExactMatches (r : StdRecord) (db : EntityStore) :
    List (Str × ℚ × String) :=
  (if truthyOpt r.emailClean then
    (db.filter (fun g => g.masterEmail == some (r.emailClean.getD []))).map
      (fun g => (g.entityId, (1 : ℚ), "email"))
  else []) ++
  (if truthyOpt r.phoneClean then
    (db.filter (fun g => g.masterPhone == some (r.phoneClean.getD []))).map
      (fun g => (g.entityId, (1 : ℚ), "phone"))
  else [])

/-- `find_vector_matches`: immediately empty when no embedding is supplied;
otherwise the similarity query may fail (`Except.error`), which is swallowed
and returns empty; on success, keep entities with similarity above `0.7`. -/
def findVectorMatches (embedding : List ℚ)
    (queryResult : Except String (List (Str × ℚ))) :
    List (Str × ℚ × String) :=
  if embedding.isEmpty then []
  else
    match queryResult with
    | Except.error _ => []
    | Except.ok rows =>
      (rows.filter (fun p => 7/10 < p.2)).map
        (fun p => (p.1, p.2, "vector"))

/-- `apply_business_rules`: entities sharing the record's (raw) company
(score `0.3`), plus entities sharing `(city_clean, state_clean)` (score
`0.2`); each query runs only when the record's fields are truthy. -/
def applyBusinessRules (r : StdRecord) (db : EntityStore) :
    List (Str × ℚ × String) :=
  (if truthyOpt r.company then
    (db.filter (fun g => g.masterCompany == some (r.company.getD []))).map
      (fun g => (g.entityId, (3/10 : ℚ), "company"))
  else []) ++
  (if truthyOpt r.cityClean && truthyOpt r.stateClean then
    (db.filter (fun g =>
      g.masterCity == some (r.cityClean.getD []) &&
      g.masterState == some (r.stateClean.getD []))).map
      (fun g => (g.entityId, (1/5 : ℚ), "location"))
  else [])

/-!  Score combination and decision (`combine_scores`, `make_decision`). -/

/-- The per-strategy loop of `combine_scores`: starting from `0.0`, take the
maximum score among the strategy's matches for the given entity. -/
def bestStrategyScore (ms : List (Str × ℚ × String)) (eid : Str) : ℚ :=
  ms.foldl (fun acc m => if m.1 == eid then max acc m.2.1 else acc) 0

/-- The weighted combined score of one entity: `0.33 * exact + 0.28 * fuzzy
+ 0.22 * vector + 0.17 * business`. -/
def combinedScoreFor (ex fz vz bz : List (Str × ℚ × String)) (eid : Str) :
    ℚ :=
  33/100 * bestStrategyScore ex eid + 28/100 * bestStrategyScore fz eid +
    22/100 * bestStrategyScore vz eid + 17/100 * bestStrategyScore bz eid

/-- The distinct entity ids occurring in any strategy's matches (a Python
`set`, modelled in first-occurrence order). -/
def allMatchedEntities (ex fz vz bz : List (Str × ℚ × String)) : List Str :=
  pySetList ((ex ++ fz ++ vz ++ bz).map (fun m => m.1))

/-- Python `max(candidates, key=score)`: the first candidate attaining the
maximal score. -/
def argmaxByScore (score : Str → ℚ) (l : List Str) : Option Str :=
  l.foldl (fun acc x =>
    match acc with
    | none => some x
    | some m => if score m < score x then some x else acc) none

/-- Result of `combine_scores`: the best-scoring entity, its combined score,
and its per-strategy breakdown (exact, fuzzy, vector, business). -/
structure CombineResult where
  bestMatch : Option Str
  combinedScore : ℚ
  strategyScores : ℚ × ℚ × ℚ × ℚ
deriving DecidableEq

/-- `combine_scores`: the zero result when no strategy matched anything,
else the weighted scores of all candidate entities and the best of them. -/
def combineScores (ex fz vz bz : List (Str × ℚ × String)) : CombineResult :=
  match argmaxByScore (combinedScoreFor ex fz vz bz)
      (allMatchedEntities ex fz vz bz) with
  | none => ⟨none, 0, (0, 0, 0, 0)⟩
  | some best =>
    ⟨some best, combinedScoreFor ex fz vz bz best,
      (bestStrategyScore ex best, bestStrategyScore fz best,
       bestStrategyScore vz best, bestStrategyScore bz best)⟩

/-- The decision record returned by `make_decision`. -/
structure Decision where
  action : String
  confidence : String
  decision : String
deriving DecidableEq

/-- `make_decision`: `combined_score >= 0.8` is an auto-merge, else
`>= 0.6` human review, else create new / no match. -/
def makeDecision (combinedScore : ℚ) : Decision :=
  if 4/5 ≤ combinedScore then ⟨"AUTO_MERGE", "HIGH", "auto_merge"⟩
  else if 3/5 ≤ combinedScore then
    ⟨"HUMAN_REVIEW", "MEDIUM", "human_review"⟩
  else ⟨"CREATE_NEW", "LOW", "no_match"⟩

/-- The `match_decision` CASE of `generate_combined_scoring_sql`:
`combined_score >= 0.8 → 'auto_merge'`, `>= 0.6 → 'human_review'`, else
`'no_match'`. -/
def batchMatchDecision (combinedScore : ℚ) : String :=
  if 4/5 ≤ combinedScore then "auto_merge"
  else if 3/5 ≤ combinedScore then "human_review"
  else "no_match"

/-!  Batch business rules (`generate_business_rules_sql`).  Dates are
modelled as day numbers (`DATE_DIFF(a, b, DAY)` is their difference). -/

/-- The columns of a standardized batch record read by the business-rule and
scoring SQL. -/
structure BatchRecord where
  company : Option Str := none
  cityClean : Option Str := none
  stateClean : Option Str := none
  dateOfBirth : Option Int := none
  annualIncome : Option ℚ := none
deriving DecidableEq

/-- `same_company_score`: `0.3` when both companies are non-`NULL` and equal
(a `NULL` on either side makes the SQL comparison `NULL`, hence `0.0`). -/
def sameCompanyScore (a b : BatchRecord) : ℚ :=
  match a.company, b.company with
  | some x, some y => if x == y then 3/10 else 0
  | _, _ => 0

/-- `same_location_score`: `0.2` when both city pairs and state pairs are
non-`NULL` and equal. -/
def sameLocationScore (a b : BatchRecord) : ℚ :=
  match a.cityClean, b.cityClean, a.stateClean, b.stateClean with
  | some cx, some cy, some sx, some sy =>
    if cx == cy && sx == sy then 1/5 else 0
  | _, _, _, _ => 0

/-- `age_compatibility_score`: `0.4` when the dates of birth are within 365
days, else `0.2` within 1825 days, else `0.0`; `0.0` when either is
`NULL`. -/
def ageCompatibilityScore (a b : BatchRecord) : ℚ :=
  match a.dateOfBirth, b.dateOfBirth with
  | some x, some y =>
    if (x - y).natAbs ≤ 365 then 2/5
    else if (x - y).natAbs ≤ 1825 then 1/5
    else 0
  | _, _ => 0

/-- `income_compatibility_score`: `0.1` when both incomes are positive and
`LEAST / GREATEST >= 0.8`, else `0.0`. -/
def incomeCompatibilityScore (a b : BatchRecord) : ℚ :=
  match a.annualIncome, b.annualIncome with
  | some x, some y =>
    if 0 < x ∧ 0 < y then (if 4/5 ≤ min x y / max x y then 1/10 else 0)
    else 0
  | _, _ => 0

/-- The `business_score` of `generate_combined_scoring_sql`: the SUM of the
four business signals,
`same_company + same_location + age_compatibility + income_compatibility`. -/
def batchBusinessScore (a b : BatchRecord) : ℚ :=
  sameCompanyScore a b + sameLocationScore a b + ageCompatibilityScore a b +
    incomeCompatibilityScore a b

/-!  Batch clustering (`generate_golden_record_sql`, steps 2-5).  Record ids
are strings compared by the SQL's lexicographic `LEAST` / `MIN`. -/

/-- Lexicographic order on code strings, as SQL compares `STRING`s. -/
def strLe : Str → Str → Bool
  | [], _ => true
  | _ :: _, [] => false
  | a :: s, b :: t => if a < b then true else if b < a then false else strLe s t

/-- SQL `LEAST` of two strings. -/
def sqlLeast (a b : Str) : Str := if strLe a b then a else b

/-- SQL aggregate `MIN` over string values (`NULL` on an empty set). -/
def sqlMinList : List Str → Option Str
  | [] => none
  | x :: xs => some (xs.foldl sqlLeast x)

/-- SQL aggregate `MIN` over nullable string values (`NULL`s are ignored;
`NULL` when all inputs are `NULL`). -/
def sqlMinOpt (l : List (Option Str)) : Option Str :=
  sqlMinList (l.filterMap id)

/-- Step 2 (`edges`): each match pair produces both directions. -/
def bidirectionalEdges (pairs : List (Str × Str)) : List (Str × Str) :=
  pairs ++ pairs.map (fun p => (p.2, p.1))

/-- The `node2` values joined to a record through `edges`. -/
def edgeNeighbors (edges : List (Str × Str)) (r : Str) : List Str :=
  (edges.filter (fun e => e.1 == r)).map (fun e => e.2)

/-- Step 4 (`propagated_clusters`): every initial cluster id is the record id
itself, and each record takes `MIN(LEAST(own id, neighbor id))` over its
neighbors; a record with no neighbor joins only `NULL`s and gets `NULL`. -/
def propagatedCluster (pairs : List (Str × Str)) (r : Str) : Option Str :=
  sqlMinList ((edgeNeighbors (bidirectionalEdges pairs) r).map (sqlLeast r))

/-- Step 5 (`final_clusters`): each record takes `MIN` of its neighbors'
propagated cluster ids (for a record with no neighbor, the second UNION
branch yields its own propagated value, which is also `NULL`). -/
def finalCluster (pairs : List (Str × Str)) (r : Str) : Option Str :=
  sqlMinOpt ((edgeNeighbors (bidirectionalEdges pairs) r).map
    (propagatedCluster pairs))

/-!  The record dict (`standardize_record`).  A Python dict with string
values is an association list in insertion order; assignment replaces the
value in place when the key exists and appends otherwise. -/

/-- A Python dict with string keys and string values. -/
abbrev PyDict := List (String × Str)

/-- `d.get(k)`: the value at `k`, or `None`. -/
def dget : PyDict → String → Option Str
  | [], _ => none
  | (k', v) :: d, k => if k' == k then some v else dget d k

/-- `d[k] = v`: replace in place when present, append otherwise. -/
def dset : PyDict → String → Str → PyDict
  | [], k, v => [(k, v)]
  | (k', v') :: d, k, v =>
    if k' == k then (k, v) :: d else (k', v') :: dset d k v

/-- `standardize_record`: copy the record, then add each `*_clean` key,
computed from the raw field, when the raw field is truthy. -/
def standardizeRecord (record : PyDict) : PyDict :=
  let s0 := record
  let s1 := if truthyOpt (dget record "full_name") then
    dset s0 "full_name_clean" (nameClean ((dget record "full_name").getD []))
    else s0
  let s2 := if truthyOpt (dget record "email") then
    dset s1 "email_clean" (emailClean ((dget record "email").getD []))
    else s1
  let s3 := if truthyOpt (dget record "phone") then
    dset s2 "phone_clean" (phoneClean ((dget record "phone").getD []))
    else s2
  let s4 := if truthyOpt (dget record "address") then
    dset s3 "address_clean" (addressClean ((dget record "address").getD []))
    else s3
  let s5 := if truthyOpt (dget record "city") then
    dset s4 "city_clean" (cityClean ((dget record "city").getD []))
    else s4
  let s6 := if truthyOpt (dget record "state") then
    dset s5 "state_clean" (cityClean ((dget record "state").getD []))
    else s5
  s6

/-- The six derived keys added by `standardize_record`, paired with the raw
key each is computed from. -/
def cleanKeyPairs : List (String × String) :=
  [("full_name_clean", "full_name"), ("email_clean", "email"),
   ("phone_clean", "phone"), ("address_clean", "address"),
   ("city_clean", "city"), ("state_clean", "state")]

/-!  Claim C4: decision thresholds. -/

/-- C4: for every combined score `s`, the decision is unique and the
thresholds are inclusive at the lower edge: `s ≥ 0.8` auto-merges (hence
`s = 0.8` exactly), `0.6 ≤ s < 0.8` goes to human review (hence `0.7999`),
`s < 0.6` creates new / no match; and the batch CASE classification returns
the same decision string as the streaming `make_decision` for every `s`. -/
theorem c4_decision_thresholds (s : ℚ) :
    (4/5 ≤ s → makeDecision s = ⟨"AUTO_MERGE", "HIGH", "auto_merge"⟩) ∧
    (3/5 ≤ s → s < 4/5 →
      makeDecision s = ⟨"HUMAN_REVIEW", "MEDIUM", "human_review"⟩) ∧
    (s < 3/5 → makeDecision s = ⟨"CREATE_NEW", "LOW", "no_match"⟩) ∧
    batchMatchDecision s = (makeDecision s).decision := by
  unfold makeDecision batchMatchDecision
  refine ⟨fun h => ?_, fun h h' => ?_, fun h => ?_, ?_⟩ <;>
    split_ifs <;> first | rfl | linarith

/-- Witness for C4 at the boundary scores `0.8`, `0.7999` and `0.5`. -/
theorem c4_decision_thresholds_witness :
    makeDecision (4/5) = ⟨"AUTO_MERGE", "HIGH", "auto_merge"⟩ ∧
    makeDecision (7999/10000) = ⟨"HUMAN_REVIEW", "MEDIUM", "human_review"⟩ ∧
    makeDecision (1/2) = ⟨"CREATE_NEW", "LOW", "no_match"⟩ :=
  ⟨(c4_decision_thresholds (4/5)).1 (by norm_num),
   (c4_decision_thresholds (7999/10000)).2.1 (by norm_num) (by norm_num),
   (c4_decision_thresholds (1/2)).2.2.1 (by norm_num)⟩

/-!  Claim C8: vector-strategy degradation. -/

/-- C8: with no embedding the vector strategy returns the empty candidate
set; when the similarity query fails it also returns empty; an empty match
list contributes a zero vector score, the combined score then degrades to
the other three weighted strategies, and the decision function still yields
exactly one of the three decisions for every score. -/
theorem c8_vector_degradation :
    (∀ q, findVectorMatches [] q = []) ∧
    (∀ emb (msg : String), findVectorMatches emb (Except.error msg) = []) ∧
    (∀ eid, bestStrategyScore ([] : List (Str × ℚ × String)) eid = 0) ∧
    (∀ ex fz bz eid, combinedScoreFor ex fz [] bz eid =
      33/100 * bestStrategyScore ex eid + 28/100 * bestStrategyScore fz eid +
        17/100 * bestStrategyScore bz eid) ∧
    (∀ s : ℚ, makeDecision s = ⟨"AUTO_MERGE", "HIGH", "auto_merge"⟩ ∨
      makeDecision s = ⟨"HUMAN_REVIEW", "MEDIUM", "human_review"⟩ ∨
      makeDecision s = ⟨"CREATE_NEW", "LOW", "no_match"⟩) := by
  refine ⟨fun q => rfl, fun emb msg => ?_, fun eid => rfl,
    fun ex fz bz eid => ?_, fun s => ?_⟩
  · cases emb <;> rfl
  · unfold combinedScoreFor
    simp only [bestStrategyScore, List.foldl_nil]
    ring
  · unfold makeDecision
    split_ifs <;> simp

/-!  Claim C2: batch clustering on chains.  The generated SQL performs two
rounds of one-hop minimum propagation (steps 4 and 5), which merges a
three-record chain but splits a four-record chain. -/

/-- C2: evaluating the embedded clustering SQL.  On the chain
(A,B), (B,C) the three records do receive one common cluster id `a`; but on
the chain (A,B), (B,C), (C,D) (three hops) record D receives cluster id `b`
while A, B, C receive `a` — the pipeline does not compute connected
components. -/
theorem c2_cluster_propagation_evaluation :
    (finalCluster [(toCodes "a", toCodes "b"), (toCodes "b", toCodes "c")]
        (toCodes "a") = some (toCodes "a") ∧
     finalCluster [(toCodes "a", toCodes "b"), (toCodes "b", toCodes "c")]
        (toCodes "b") = some (toCodes "a") ∧
     finalCluster [(toCodes "a", toCodes "b"), (toCodes "b", toCodes "c")]
        (toCodes "c") = some (toCodes "a")) ∧
    (finalCluster [(toCodes "a", toCodes "b"), (toCodes "b", toCodes "c"),
        (toCodes "c", toCodes "d")] (toCodes "a") = some (toCodes "a") ∧
     finalCluster [(toCodes "a", toCodes "b"), (toCodes "b", toCodes "c"),
        (toCodes "c", toCodes "d")] (toCodes "b") = some (toCodes "a") ∧
     finalCluster [(toCodes "a", toCodes "b"), (toCodes "b", toCodes "c"),
        (toCodes "c", toCodes "d")] (toCodes "c") = some (toCodes "a") ∧
     finalCluster [(toCodes "a", toCodes "b"), (toCodes "b", toCodes "c"),
        (toCodes "c", toCodes "d")] (toCodes "d") = some (toCodes "b") ∧
     finalCluster [(toCodes "a", toCodes "b"), (toCodes "b", toCodes "c"),
        (toCodes "c", toCodes "d")] (toCodes "d") ≠
       finalCluster [(toCodes "a", toCodes "b"), (toCodes "b", toCodes "c"),
        (toCodes "c", toCodes "d")] (toCodes "a")) := by
  decide

/-!  Dict lemmas for the frame claim. -/

theorem dget_dset_self (d : PyDict) (k : String) (v : Str) :
    dget (dset d k v) k = some v := by
  induction d with
  | nil => simp [dset, dget]
  | cons p d ih =>
    obtain ⟨k', v'⟩ := p
    by_cases h : k' = k
    · subst h; simp [dset, dget]
    · simp [dset, dget, h, ih]

theorem dget_dset_ne (d : PyDict) (k k' : String) (v : Str) (h : k' ≠ k) :
    dget (dset d k v) k' = dget d k' := by
  induction d with
  | nil => simp [dset, dget, Ne.symm h]
  | cons p d ih =>
    obtain ⟨k'', v''⟩ := p
    by_cases h2 : k'' = k
    · subst h2
      simp [dset, dget, Ne.symm h]
    · by_cases h3 : k'' = k'
      · subst h3; simp [dset, dget, h2]
      · simp [dset, dget, h2, h3, ih]

theorem dget_ite_dset_ne (c : Prop) [Decidable c] (d : PyDict)
    (key k : String) (v : Str) (h : k ≠ key) :
    dget (if c then dset d key v else d) k = dget d k := by
  split_ifs with hc
  · exact dget_dset_ne d key k v h
  · rfl

/-!  Claim C10: the standardizer as a frame over the record dict. -/

/-- C10 fails as stated on a record that already carries a derived key: for
the input dict with keys `full_name ↦ "Bob"` and `full_name_clean ↦ "STALE"`,
the standardizer rebinds `full_name_clean` to `"BOB"`, so not every key of
the input keeps its input value. -/
theorem c10_frame_counterexample :
    dget (standardizeRecord [("full_name", toCodes "Bob"),
      ("full_name_clean", toCodes "STALE")]) "full_name_clean" =
        some (toCodes "BOB") ∧
    dget [("full_name", toCodes "Bob"), ("full_name_clean", toCodes "STALE")]
      "full_name_clean" = some (toCodes "STALE") ∧
    some (toCodes "BOB") ≠ some (toCodes "STALE") := by decide

/-- C10 amended: for every input record containing none of the six derived
`*_clean` keys, the standardizer maps every non-derived key to its input
value (in particular every key of the input keeps its value), and each
derived key is present in the output exactly when the corresponding raw
field is truthy (present and non-empty). -/
theorem c10_frame_amended (d : PyDict)
    (hclean : ∀ p ∈ cleanKeyPairs, dget d p.1 = none) :
    (∀ k : String, (∀ p ∈ cleanKeyPairs, k ≠ p.1) →
      dget (standardizeRecord d) k = dget d k) ∧
    (∀ p ∈ cleanKeyPairs,
      (dget (standardizeRecord d) p.1).isSome = truthyOpt (dget d p.2)) := by
  have hmem : ∀ p : String × String, p ∈ cleanKeyPairs ↔
      p = ("full_name_clean", "full_name") ∨ p = ("email_clean", "email") ∨
      p = ("phone_clean", "phone") ∨ p = ("address_clean", "address") ∨
      p = ("city_clean", "city") ∨ p = ("state_clean", "state") := by
    intro p; simp [cleanKeyPairs]
  constructor
  · intro k hk
    have k1 : k ≠ "full_name_clean" :=
      hk ("full_name_clean", "full_name") (by simp [cleanKeyPairs])
    have k2 : k ≠ "email_clean" :=
      hk ("email_clean", "email") (by simp [cleanKeyPairs])
    have k3 : k ≠ "phone_clean" :=
      hk ("phone_clean", "phone") (by simp [cleanKeyPairs])
    have k4 : k ≠ "address_clean" :=
      hk ("address_clean", "address") (by simp [cleanKeyPairs])
    have k5 : k ≠ "city_clean" :=
      hk ("city_clean", "city") (by simp [cleanKeyPairs])
    have k6 : k ≠ "state_clean" :=
      hk ("state_clean", "state") (by simp [cleanKeyPairs])
    simp only [standardizeRecord]
    rw [dget_ite_dset_ne _ _ _ _ _ k6, dget_ite_dset_ne _ _ _ _ _ k5,
      dget_ite_dset_ne _ _ _ _ _ k4, dget_ite_dset_ne _ _ _ _ _ k3,
      dget_ite_dset_ne _ _ _ _ _ k2, dget_ite_dset_ne _ _ _ _ _ k1]
  · intro p hp
    have h1 := hclean ("full_name_clean", "full_name") (by simp [cleanKeyPairs])
    have h2 := hclean ("email_clean", "email") (by simp [cleanKeyPairs])
    have h3 := hclean ("phone_clean", "phone") (by simp [cleanKeyPairs])
    have h4 := hclean ("address_clean", "address") (by simp [cleanKeyPairs])
    have h5 := hclean ("city_clean", "city") (by simp [cleanKeyPairs])
    have h6 := hclean ("state_clean", "state") (by simp [cleanKeyPairs])
    rcases (hmem p).1 hp with rfl | rfl | rfl | rfl | rfl | rfl <;>
        simp only [standardizeRecord]
    · rw [dget_ite_dset_ne _ _ _ _ _ (by decide),
        dget_ite_dset_ne _ _ _ _ _ (by decide),
        dget_ite_dset_ne _ _ _ _ _ (by decide),
        dget_ite_dset_ne _ _ _ _ _ (by decide),
        dget_ite_dset_ne _ _ _ _ _ (by decide)]
      split_ifs with hc <;>
        simp [dget_dset_self, dget_dset_ne, h1, hc]
    · rw [dget_ite_dset_ne _ _ _ _ _ (by decide),
        dget_ite_dset_ne _ _ _ _ _ (by decide),
        dget_ite_dset_ne _ _ _ _ _ (by decide),
        dget_ite_dset_ne _ _ _ _ _ (by decide)]
      split_ifs with hc h <;>
        simp [dget_dset_self, dget_dset_ne, h2, hc]
    · rw [dget_ite_dset_ne _ _ _ _ _ (by decide),
        dget_ite_dset_ne _ _ _ _ _ (by decide),
        dget_ite_dset_ne _ _ _ _ _ (by decide)]
      split_ifs with hc <;>
        simp [dget_dset_self, dget_dset_ne, h3, hc]
    · rw [dget_ite_dset_ne _ _ _ _ _ (by decide),
        dget_ite_dset_ne _ _ _ _ _ (by decide)]
      split_ifs with hc <;>
        simp [dget_dset_self, dget_dset_ne, h4, hc]
    · rw [dget_ite_dset_ne _ _ _ _ _ (by decide)]
      split_ifs with hc <;>
        simp [dget_dset_self, dget_dset_ne, h5, hc]
    · split_ifs with hc <;>
        simp [dget_dset_self, dget_dset_ne, h6, hc]

/-- Witness for C10 at a concrete record without derived keys. -/
theorem c10_frame_amended_witness :
    dget (standardizeRecord [("full_name", toCodes "Ann"),
      ("email", toCodes "")]) "full_name" =
      dget [("full_name", toCodes "Ann"), ("email", toCodes "")]
        "full_name" ∧
    (dget (standardizeRecord [("full_name", toCodes "Ann"),
      ("email", toCodes "")]) "email_clean").isSome =
      truthyOpt (dget [("full_name", toCodes "Ann"),
        ("email", toCodes "")] "email") := by
  refine ⟨(c10_frame_amended _ ?_).1 "full_name" ?_,
    (c10_frame_amended _ ?_).2 ("email_clean", "email") ?_⟩ <;> decide

/-!  Claim C1: the deterministic entity-id rule. -/

theorem bytesToHex_length (l : List Nat) :
    (bytesToHex l).length = 2 * l.length := by
  induction l with
  | nil => rfl
  | cons b t ih =>
    simp only [bytesToHex, List.flatMap_cons, List.length_append,
      List.length_cons, List.length_nil] at *
    omega

theorem sha256Bytes_length (msg : List Nat) :
    (sha256Bytes msg).length = 32 := by
  unfold sha256Bytes
  simp [wordBytes]

theorem truncatedHash_length (s : Str) : (truncatedHash s).length = 36 := by
  unfold truncatedHash
  rw [List.length_take, bytesToHex_length, sha256Bytes_length]
  norm_num

theorem truthyOpt_none : truthyOpt none = false := rfl

/-- Either `NULL` or a non-empty string: on such a field the Python
truthiness test of the streaming id rule and the `IS NOT NULL` test of the
batch id rule agree. -/
def noEmptyOpt (o : Option Str) : Bool :=
  o.elim true (fun s => !s.isEmpty)

/-- C1 fails as stated at a record whose cleaned email is present but empty
(raw email `" "` standardizes to `""`): the claim demands the truncated hash
of `"email:"`, but the streaming rule tests truthiness, skips the empty
email and the absent phone, and returns the fresh random id, while the batch
rule tests `IS NOT NULL` and does hash the empty email — so the two paths
also disagree on this record. -/
theorem c1_entity_id_counterexample :
    generateDeterministicEntityId { emailClean := some [] } none
      (toCodes "F") = toCodes "F" ∧
    toCodes "F" ≠ truncatedHash (toCodes "email:" ++ []) ∧
    batchMasterId (some []) none (toCodes "X") =
      truncatedHash (toCodes "email:" ++ []) ∧
    generateDeterministicEntityId { emailClean := some [] } none
      (toCodes "F") ≠ batchMasterId (some []) none (toCodes "X") := by
  have h1 : generateDeterministicEntityId { emailClean := some [] } none
      (toCodes "F") = toCodes "F" := rfl
  have h3 : batchMasterId (some []) none (toCodes "X") =
      truncatedHash (toCodes "email:" ++ []) := rfl
  have hne : toCodes "F" ≠ truncatedHash (toCodes "email:" ++ []) := by
    intro h
    have hl := congrArg List.length h
    rw [truncatedHash_length] at hl
    exact absurd hl (by decide)
  exact ⟨h1, hne, h3, by rw [h1, h3]; exact hne⟩

/-- The streaming id rule takes the email branch exactly when the cleaned
email is truthy. -/
theorem genId_email (r : StdRecord) (f : Str)
    (he : truthyOpt r.emailClean = true) :
    generateDeterministicEntityId r none f =
      truncatedHash (toCodes "email:" ++ r.emailClean.getD []) := by
  simp [generateDeterministicEntityId, truthyOpt_none, he]

/-- The streaming id rule takes the phone branch exactly when the cleaned
email is falsy and the cleaned phone truthy. -/
theorem genId_phone (r : StdRecord) (f : Str)
    (he : truthyOpt r.emailClean = false)
    (hp : truthyOpt r.phoneClean = true) :
    generateDeterministicEntityId r none f =
      truncatedHash (toCodes "phone:" ++ r.phoneClean.getD []) := by
  simp [generateDeterministicEntityId, truthyOpt_none, he, hp]

/-- The streaming id rule returns the fresh random id exactly when both
identifying fields are falsy. -/
theorem genId_fresh (r : StdRecord) (f : Str)
    (he : truthyOpt r.emailClean = false)
    (hp : truthyOpt r.phoneClean = false) :
    generateDeterministicEntityId r none f = f := by
  simp [generateDeterministicEntityId, truthyOpt_none, he, hp]

/-- C1 amended: the entity id is a pure function of the first *truthy*
(non-null and non-empty) identifying field: a truthy cleaned email gives the
truncated SHA-256 of `"email:" + email`, else a truthy cleaned phone gives
the truncated SHA-256 of `"phone:" + phone`, else the fresh random id is
used; records with the same truthy cleaned email get the same id across
independent calls; and the batch rule produces the identical id whenever
email and phone are each `NULL` or non-empty, with at least one present. -/
theorem c1_entity_id_amended (r r2 : StdRecord) (f f2 cid : Str) :
    (truthyOpt r.emailClean = true →
      generateDeterministicEntityId r none f =
        truncatedHash (toCodes "email:" ++ r.emailClean.getD [])) ∧
    (truthyOpt r.emailClean = false → truthyOpt r.phoneClean = true →
      generateDeterministicEntityId r none f =
        truncatedHash (toCodes "phone:" ++ r.phoneClean.getD [])) ∧
    (truthyOpt r.emailClean = false → truthyOpt r.phoneClean = false →
      generateDeterministicEntityId r none f = f) ∧
    (truthyOpt r.emailClean = true → r2.emailClean = r.emailClean →
      generateDeterministicEntityId r2 none f2 =
        generateDeterministicEntityId r none f) ∧
    (noEmptyOpt r.emailClean = true → noEmptyOpt r.phoneClean = true →
      (r.emailClean.isSome || r.phoneClean.isSome) = true →
      batchMasterId r.emailClean r.phoneClean cid =
        generateDeterministicEntityId r none f) := by
  refine ⟨genId_email r f, genId_phone r f, genId_fresh r f,
    fun he h2 => ?_, fun hne hnp hsome => ?_⟩
  · have he2 : truthyOpt r2.emailClean = true := by rw [h2]; exact he
    rw [genId_email r f he, genId_email r2 f2 he2, h2]
  · rcases hre : r.emailClean with _ | e
    · rcases hrp : r.phoneClean with _ | p
      · rw [hre, hrp] at hsome; simp at hsome
      · have hp : truthyOpt r.phoneClean = true := by
          rw [hrp] at hnp ⊢
          simpa [noEmptyOpt, truthyOpt] using hnp
        have he : truthyOpt r.emailClean = false := by rw [hre]; rfl
        rw [genId_phone r f he hp, hrp]
        simp [batchMasterId]
    · have he : truthyOpt r.emailClean = true := by
        rw [hre] at hne ⊢
        simpa [noEmptyOpt, truthyOpt] using hne
      rw [genId_email r f he, hre]
      simp [batchMasterId]

/-- A concrete record with a truthy cleaned email and phone (C1 witness). -/
def c1RecordA : StdRecord :=
  { emailClean := some (toCodes "john@x.com"),
    phoneClean := some (toCodes "5551234567") }

/-- A concrete record sharing `c1RecordA`'s cleaned email but carrying no
phone (C1 witness). -/
def c1RecordB : StdRecord := { emailClean := some (toCodes "john@x.com") }

/-- Witness for C1 at two records sharing the truthy cleaned email
`"john@x.com"` (one also carrying a phone), plus the batch agreement at the
same record. -/
theorem c1_entity_id_amended_witness :
    generateDeterministicEntityId c1RecordA none (toCodes "F1") =
      truncatedHash (toCodes "email:" ++ c1RecordA.emailClean.getD []) ∧
    generateDeterministicEntityId c1RecordB none (toCodes "F2") =
      generateDeterministicEntityId c1RecordA none (toCodes "F1") ∧
    batchMasterId c1RecordA.emailClean c1RecordA.phoneClean (toCodes "X") =
      generateDeterministicEntityId c1RecordA none (toCodes "F1") := by
  refine ⟨(c1_entity_id_amended c1RecordA c1RecordB (toCodes "F1")
      (toCodes "F2") (toCodes "X")).1 ?_,
    (c1_entity_id_amended c1RecordA c1RecordB (toCodes "F1") (toCodes "F2")
      (toCodes "X")).2.2.2.1 ?_ ?_,
    (c1_entity_id_amended c1RecordA c1RecordB (toCodes "F1") (toCodes "F2")
      (toCodes "X")).2.2.2.2 ?_ ?_ ?_⟩ <;> decide

/-!  Claim C3: streaming survivorship. -/

/-- Replacing the row found at an entity id makes the lookup return the
replacement (provided the replacement keeps the row's entity id). -/
theorem lookupEntity_replace (st : EntityStore) (eid : Str)
    (g g' : GoldenEntity) (h : lookupEntity st eid = some g)
    (hid : g'.entityId = g.entityId) :
    lookupEntity (replaceEntity st eid g') eid = some g' := by
  induction st with
  | nil => simp [lookupEntity] at h
  | cons a st ih =>
    unfold lookupEntity replaceEntity at *
    rw [List.map_cons]
    by_cases ha : (a.entityId == eid) = true
    · rw [@List.find?_cons_of_pos _ (fun g => g.entityId == eid) a st ha] at h
      have hag : a = g := by injection h
      rw [if_pos ha]
      have hg' : (g'.entityId == eid) = true := by rw [hid, ← hag]; exact ha
      rw [@List.find?_cons_of_pos _ (fun g => g.entityId == eid) g' _ hg']
    · rw [@List.find?_cons_of_neg _ (fun g => g.entityId == eid) a st ha] at h
      rw [if_neg ha,
        @List.find?_cons_of_neg _ (fun g => g.entityId == eid) a _ ha]
      exact ih h

/-- A concrete entity whose master phone is already the non-null "111". -/
def c3Entity : GoldenEntity :=
  { entityId := toCodes "E1", masterPhone := some (toCodes "111") }

/-- A concrete record carrying phone "222". -/
def c3Record : StdRecord := { phoneClean := some (toCodes "222") }

/-- C3 fails as stated: merging a record whose clean phone is `"222"` into a
golden entity whose stored master phone is the non-null `"111"` overwrites
the stored value (the code computes `incoming or existing`, and the
create-path merge computes `COALESCE(incoming, existing)`): last-writer-wins,
not first-writer-wins. -/
theorem c3_survivorship_counterexample :
    (updateGoldenRecord (toCodes "E1") c3Record [] [c3Entity]).map
      (fun p => (lookupEntity p.2 (toCodes "E1")).map
        (fun g => g.masterPhone)) = some (some (some (toCodes "222"))) ∧
    c3Entity.masterPhone = some (toCodes "111") ∧
    some (toCodes "222") ≠ some (toCodes "111") ∧
    sqlCoalesce (some (toCodes "222")) (some (toCodes "111")) =
      some (toCodes "222") := by decide

/-- C3 amended: on the streaming path, a merge takes each master identity
field from the incoming record whenever the incoming value wins Python
truthiness (`incoming or existing` in `update_golden_record`) resp. is
non-`NULL` (`COALESCE(incoming, existing)` in the `create_new_golden_record`
merge branch), falling back to the stored value otherwise: last-writer-wins.
Two records with the same truthy cleaned email still resolve to the same
deterministic entity id, and the second record's phone becomes the master
phone whenever the second record carries one, regardless of the first. -/
theorem c3_survivorship_amended (st : EntityStore) (eid : Str)
    (g : GoldenEntity) (r : StdRecord) (emb : List ℚ) (f : Str)
    (h : lookupEntity st eid = some g) :
    (updateGoldenRecord eid r emb st = some (eid, replaceEntity st eid
      { g with
        masterName := pyOr r.fullNameClean g.masterName
        masterEmail := pyOr r.emailClean g.masterEmail
        masterPhone := pyOr r.phoneClean g.masterPhone
        masterAddress := pyOr r.addressClean g.masterAddress
        sourceRecordIds := g.sourceRecordIds ++ [r.recordId.getD eid]
        sourceSystems := pySetList (g.sourceSystems ++
          [r.sourceSystem.getD (toCodes "unknown")])
        sourceRecordCount := g.sourceRecordCount + 1
        embedding := emb })) ∧
    (∀ a b : Option Str, truthyOpt a = true → pyOr a b = a) ∧
    (∀ a b : Option Str, truthyOpt a = false → pyOr a b = b) ∧
    (∀ a b : Option Str, a.isSome = true → sqlCoalesce a b = a) ∧
    (∀ b : Option Str, sqlCoalesce none b = b) ∧
    (generateDeterministicEntityId r none f = eid →
      createNewGoldenRecord r emb f st = (eid, replaceEntity st eid
        { g with
          sourceRecordIds := g.sourceRecordIds ++ [r.recordId.getD eid]
          sourceSystems := pySetList (g.sourceSystems ++
            [r.sourceSystem.getD (toCodes "unknown")])
          sourceRecordCount := g.sourceRecordCount + 1
          masterName := sqlCoalesce r.fullNameClean g.masterName
          masterEmail := sqlCoalesce r.emailClean g.masterEmail
          masterPhone := sqlCoalesce r.phoneClean g.masterPhone
          masterAddress := sqlCoalesce r.addressClean g.masterAddress
          masterCity := sqlCoalesce r.cityClean g.masterCity
          masterState := sqlCoalesce r.stateClean g.masterState
          masterCompany := sqlCoalesce r.company g.masterCompany
          embedding := emb
          processingPath := "stream_updated" })) ∧
    (truthyOpt r.emailClean = true → ∀ r2 f2, r2.emailClean = r.emailClean →
      generateDeterministicEntityId r2 none f2 =
        generateDeterministicEntityId r none f) := by
  refine ⟨?_, ?_, ?_, ?_, ?_, ?_, ?_⟩
  · simp [updateGoldenRecord, h]
  · intro a b ht; simp [pyOr, ht]
  · intro a b ht; simp [pyOr, ht]
  · intro a b ht; simp [sqlCoalesce, ht]
  · intro b; rfl
  · intro hgen
    simp [createNewGoldenRecord, hgen, h]
  · intro he r2 f2 h2
    rw [genId_email r f he, genId_email r2 f2 (by rw [h2]; exact he), h2]

/-- A concrete record for the C3 witness. -/
def c3WitnessRecord : StdRecord :=
  { recordId := some (toCodes "R2"), phoneClean := some (toCodes "222") }

/-- A concrete stored entity for the C3 witness, keyed by the deterministic
id the witness record produces. -/
def c3WitnessEntity : GoldenEntity :=
  { entityId := generateDeterministicEntityId c3WitnessRecord none
      (toCodes "F"),
    masterPhone := some (toCodes "111") }

/-- Witness for C3: the amended theorem applied at a concrete store. -/
theorem c3_survivorship_amended_witness :
    pyOr (some (toCodes "222")) (some (toCodes "111")) =
      some (toCodes "222") :=
  (c3_survivorship_amended [c3WitnessEntity] c3WitnessEntity.entityId
    c3WitnessEntity c3WitnessRecord [] (toCodes "F")
    (by simp [lookupEntity])).2.1
    (some (toCodes "222")) (some (toCodes "111")) (by decide)

/-!  Claim C7: duplicate submissions on the streaming create-or-merge
path. -/

/-- The row inserted by `create_new_golden_record` when the deterministic id
is absent. -/
def insertedEntity (r : StdRecord) (emb : List ℚ) (eid : Str) :
    GoldenEntity :=
  { entityId := eid
    sourceRecordIds := [r.recordId.getD eid]
    sourceRecordCount := 1
    sourceSystems := [r.sourceSystem.getD (toCodes "unknown")]
    masterName := r.fullNameClean
    masterEmail := r.emailClean
    masterPhone := r.phoneClean
    masterAddress := r.addressClean
    masterCity := r.cityClean
    masterState := r.stateClean
    masterCompany := r.company
    masterIncome := r.annualIncome
    masterSegment := r.customerSegment
    embedding := emb
    confidenceScore := 4/5
    processingPath := "stream" }

/-- The row written by the merge branch of `create_new_golden_record`. -/
def mergedEntity (g : GoldenEntity) (r : StdRecord) (emb : List ℚ)
    (eid : Str) : GoldenEntity :=
  { g with
    sourceRecordIds := g.sourceRecordIds ++ [r.recordId.getD eid]
    sourceSystems := pySetList (g.sourceSystems ++
      [r.sourceSystem.getD (toCodes "unknown")])
    sourceRecordCount := g.sourceRecordCount + 1
    masterName := sqlCoalesce r.fullNameClean g.masterName
    masterEmail := sqlCoalesce r.emailClean g.masterEmail
    masterPhone := sqlCoalesce r.phoneClean g.masterPhone
    masterAddress := sqlCoalesce r.addressClean g.masterAddress
    masterCity := sqlCoalesce r.cityClean g.masterCity
    masterState := sqlCoalesce r.stateClean g.masterState
    masterCompany := sqlCoalesce r.company g.masterCompany
    embedding := emb
    processingPath := "stream_updated" }

theorem createNew_insert (r : StdRecord) (emb : List ℚ) (f : Str)
    (st : EntityStore)
    (habsent : lookupEntity st (generateDeterministicEntityId r none f) =
      none) :
    createNewGoldenRecord r emb f st =
      (generateDeterministicEntityId r none f,
       st ++ [insertedEntity r emb (generateDeterministicEntityId r none f)])
    := by
  simp [createNewGoldenRecord, habsent, insertedEntity]

theorem createNew_merge (r : StdRecord) (emb : List ℚ) (f : Str)
    (st : EntityStore) (g : GoldenEntity)
    (hfound : lookupEntity st (generateDeterministicEntityId r none f) =
      some g) :
    createNewGoldenRecord r emb f st =
      (generateDeterministicEntityId r none f,
       replaceEntity st (generateDeterministicEntityId r none f)
         (mergedEntity g r emb (generateDeterministicEntityId r none f)))
    := by
  simp [createNewGoldenRecord, hfound, mergedEntity]

/-- Submitting the same record twice through the streaming create-or-merge
path, starting from a store without its deterministic id: the second
submission reuses the first id, merges into the existing row (exactly one
row with that id exists afterwards), and the row's `source_record_ids` holds
the record's id twice. -/
theorem createTwiceSpec (r : StdRecord) (emb1 emb2 : List ℚ) (f1 f2 : Str)
    (st0 : EntityStore)
    (hemail : truthyOpt r.emailClean = true)
    (habsent : lookupEntity st0 (generateDeterministicEntityId r none f1) =
      none) :
    (createNewGoldenRecord r emb1 f1 st0).1 =
      generateDeterministicEntityId r none f1 ∧
    (createNewGoldenRecord r emb2 f2
        (createNewGoldenRecord r emb1 f1 st0).2).1 =
      generateDeterministicEntityId r none f1 ∧
    (lookupEntity (createNewGoldenRecord r emb2 f2
          (createNewGoldenRecord r emb1 f1 st0).2).2
        (generateDeterministicEntityId r none f1)).map
        (fun g => g.sourceRecordIds) =
      some [r.recordId.getD (generateDeterministicEntityId r none f1),
            r.recordId.getD (generateDeterministicEntityId r none f1)] ∧
    List.countP
        (fun g => g.entityId == generateDeterministicEntityId r none f1)
        (createNewGoldenRecord r emb2 f2
          (createNewGoldenRecord r emb1 f1 st0).2).2 = 1 := by
  have hgen : generateDeterministicEntityId r none f2 =
      generateDeterministicEntityId r none f1 := by
    rw [genId_email r f2 hemail, genId_email r f1 hemail]
  set E := generateDeterministicEntityId r none f1 with hE
  have h1 := createNew_insert r emb1 f1 st0 habsent
  have hnot : ∀ a ∈ st0, ¬ (a.entityId == E) = true := by
    intro a ha
    exact List.find?_eq_none.1 habsent a ha
  have hfound2 : lookupEntity (st0 ++ [insertedEntity r emb1 E]) E =
      some (insertedEntity r emb1 E) := by
    unfold lookupEntity at habsent ⊢
    rw [List.find?_append, habsent]
    simp [insertedEntity]
  have h2 := createNew_merge r emb2 f2 (st0 ++ [insertedEntity r emb1 E])
    (insertedEntity r emb1 E) (by rw [hgen]; exact hfound2)
  rw [hgen] at h2
  rw [h1]
  refine ⟨rfl, ?_, ?_, ?_⟩
  · rw [h2]
  · rw [h2]
    have hlook := lookupEntity_replace (st0 ++ [insertedEntity r emb1 E]) E
      (insertedEntity r emb1 E)
      (mergedEntity (insertedEntity r emb1 E) r emb2 E) hfound2 rfl
    rw [hlook]
    simp [mergedEntity, insertedEntity]
  · rw [h2]
    unfold replaceEntity
    rw [List.map_append, List.countP_append]
    have hmap : List.map (fun g => if (g.entityId == E) = true
        then mergedEntity (insertedEntity r emb1 E) r emb2 E else g) st0 =
        st0 := by
      rw [List.map_congr_left (fun a ha => if_neg (hnot a ha))]
      exact List.map_id st0
    rw [hmap]
    have hz : List.countP (fun g => g.entityId == E) st0 = 0 :=
      List.countP_eq_zero.2 hnot
    rw [hz]
    simp [mergedEntity, insertedEntity]

/-- A concrete record with a truthy cleaned email and record id "R1" (C7). -/
def c7Record : StdRecord :=
  { recordId := some (toCodes "R1"), emailClean := some (toCodes "a@b.c") }

/-- C7 fails as stated: submitting `c7Record` twice appends its
`source_record_id` twice — the list grows by one entry per submission (two
entries in total), not by at most one across both; the second half of the
claim does hold (exactly one row with the deterministic id exists). -/
theorem c7_idempotence_counterexample :
    (lookupEntity (createNewGoldenRecord c7Record [] (toCodes "F2")
          (createNewGoldenRecord c7Record [] (toCodes "F1") []).2).2
        (generateDeterministicEntityId c7Record none (toCodes "F1"))).map
        (fun g => g.sourceRecordIds) =
      some [toCodes "R1", toCodes "R1"] ∧
    ¬ ([toCodes "R1", toCodes "R1"].length ≤ 1) ∧
    List.countP
        (fun g => g.entityId ==
          generateDeterministicEntityId c7Record none (toCodes "F1"))
        (createNewGoldenRecord c7Record [] (toCodes "F2")
          (createNewGoldenRecord c7Record [] (toCodes "F1") []).2).2 = 1
    := by
  have h := createTwiceSpec c7Record [] [] (toCodes "F1") (toCodes "F2") []
    (by decide) rfl
  refine ⟨?_, by decide, h.2.2.2⟩
  rw [h.2.2.1]
  simp [c7Record]

/-- C7 amended: each submission appends the record's `source_record_id`
(duplicates are not detected), so two submissions of the same record leave
two copies of its id in `source_record_ids`; but no second GoldenEntity with
the same deterministic entity id is created — the second submission merges
into the first writer's row, and exactly one row with that id exists. -/
theorem c7_idempotence_amended (r : StdRecord) (emb1 emb2 : List ℚ)
    (f1 f2 : Str) (st0 : EntityStore)
    (hemail : truthyOpt r.emailClean = true)
    (habsent : lookupEntity st0 (generateDeterministicEntityId r none f1) =
      none) :
    (createNewGoldenRecord r emb1 f1 st0).1 =
      generateDeterministicEntityId r none f1 ∧
    (createNewGoldenRecord r emb2 f2
        (createNewGoldenRecord r emb1 f1 st0).2).1 =
      generateDeterministicEntityId r none f1 ∧
    (lookupEntity (createNewGoldenRecord r emb2 f2
          (createNewGoldenRecord r emb1 f1 st0).2).2
        (generateDeterministicEntityId r none f1)).map
        (fun g => g.sourceRecordIds) =
      some [r.recordId.getD (generateDeterministicEntityId r none f1),
            r.recordId.getD (generateDeterministicEntityId r none f1)] ∧
    List.countP
        (fun g => g.entityId == generateDeterministicEntityId r none f1)
        (createNewGoldenRecord r emb2 f2
          (createNewGoldenRecord r emb1 f1 st0).2).2 = 1 :=
  createTwiceSpec r emb1 emb2 f1 f2 st0 hemail habsent

/-- Witness for C7 at the concrete record "R1". -/
theorem c7_idempotence_amended_witness :
    (createNewGoldenRecord c7Record [] (toCodes "F2")
        (createNewGoldenRecord c7Record [] (toCodes "F1") []).2).1 =
      generateDeterministicEntityId c7Record none (toCodes "F1") :=
  (c7_idempotence_amended c7Record [] [] (toCodes "F1") (toCodes "F2") []
    (by decide) rfl).2.1

/-!  Claim C6: business-rule combination. -/

/-- The per-strategy loop of `combine_scores` folds with `max`: folding from
a non-negative accumulator equals `max` of the accumulator and the fold from
zero. -/
theorem bestStrategyScore_go (eid : Str) (l : List (Str × ℚ × String)) :
    ∀ a : ℚ, 0 ≤ a →
      List.foldl (fun acc m => if m.1 == eid then max acc m.2.1 else acc) a
        l = max a (bestStrategyScore l eid) := by
  induction l with
  | nil =>
    intro a ha
    simp only [List.foldl_nil, bestStrategyScore]
    exact (max_eq_left ha).symm
  | cons m l ih =>
    intro a ha
    simp only [List.foldl_cons, bestStrategyScore] at *
    by_cases hm : (m.1 == eid) = true
    · rw [if_pos hm, if_pos hm,
        ih (max a m.2.1) (le_trans ha (le_max_left _ _)),
        ih (max 0 m.2.1) (le_max_left 0 _),
        ← max_assoc, ← max_assoc, max_eq_left ha]
    · rw [if_neg hm, if_neg hm]
      exact ih a ha

theorem bestStrategyScore_nonneg (ms : List (Str × ℚ × String)) (eid : Str) :
    0 ≤ bestStrategyScore ms eid := by
  have h : bestStrategyScore ms eid = max 0 (bestStrategyScore ms eid) :=
    bestStrategyScore_go eid ms 0 le_rfl
  rw [h]
  exact le_max_left _ _

/-- The streaming combiner takes the maximum, not the sum, of a strategy's
match scores: over concatenated match lists it is the max of the parts. -/
theorem bestStrategyScore_append (ms1 ms2 : List (Str × ℚ × String))
    (eid : Str) :
    bestStrategyScore (ms1 ++ ms2) eid =
      max (bestStrategyScore ms1 eid) (bestStrategyScore ms2 eid) := by
  unfold bestStrategyScore
  rw [List.foldl_append]
  exact bestStrategyScore_go eid ms2 (bestStrategyScore ms1 eid)
    (bestStrategyScore_nonneg ms1 eid)

/-- Every match that `apply_business_rules` emits scores `0.3` (company) or
`0.2` (location). -/
theorem applyBusinessRules_scores (r : StdRecord) (db : EntityStore) :
    ∀ m ∈ applyBusinessRules r db, m.2.1 = 3/10 ∨ m.2.1 = 1/5 := by
  intro m hm
  unfold applyBusinessRules at hm
  rw [List.mem_append] at hm
  rcases hm with hm | hm
  · split_ifs at hm with hc
    · rw [List.mem_map] at hm
      obtain ⟨g, _, rfl⟩ := hm
      left; rfl
    · simp at hm
  · split_ifs at hm with hc
    · rw [List.mem_map] at hm
      obtain ⟨g, _, rfl⟩ := hm
      right; rfl
    · simp at hm

theorem bestStrategyScore_cons (m : Str × ℚ × String)
    (l : List (Str × ℚ × String)) (eid : Str) :
    bestStrategyScore (m :: l) eid =
      if (m.1 == eid) = true then
        max (max 0 m.2.1) (bestStrategyScore l eid)
      else bestStrategyScore l eid := by
  by_cases hid : (m.1 == eid) = true
  · rw [if_pos hid]
    unfold bestStrategyScore
    rw [List.foldl_cons, if_pos hid]
    exact bestStrategyScore_go eid l (max 0 m.2.1) (le_max_left 0 _)
  · rw [if_neg hid]
    unfold bestStrategyScore
    rw [List.foldl_cons, if_neg hid]

theorem bestStrategyScore_mem (ms : List (Str × ℚ × String)) (eid : Str)
    (h : ∀ m ∈ ms, m.2.1 = 3/10 ∨ m.2.1 = 1/5) :
    bestStrategyScore ms eid = 0 ∨ bestStrategyScore ms eid = 1/5 ∨
      bestStrategyScore ms eid = 3/10 := by
  induction ms with
  | nil => left; rfl
  | cons m l ih =>
    have hl : ∀ x ∈ l, x.2.1 = 3/10 ∨ x.2.1 = 1/5 :=
      fun x hx => h x (List.mem_cons_of_mem m hx)
    have hm := h m (List.mem_cons_self m l)
    rw [bestStrategyScore_cons]
    by_cases hid : (m.1 == eid) = true
    · rw [if_pos hid]
      rcases hm with hs | hs <;> rw [hs] <;>
        rcases ih hl with h0 | h0 | h0 <;> rw [h0]
      · right; right
        rw [max_eq_right (by norm_num : (0:ℚ) ≤ 3/10),
          max_eq_left (by norm_num : (0:ℚ) ≤ 3/10)]
      · right; right
        rw [max_eq_right (by norm_num : (0:ℚ) ≤ 3/10),
          max_eq_left (by norm_num : (1/5:ℚ) ≤ 3/10)]
      · right; right
        rw [max_eq_right (by norm_num : (0:ℚ) ≤ 3/10),
          max_eq_left (by norm_num : (3/10:ℚ) ≤ 3/10)]
      · right; left
        rw [max_eq_right (by norm_num : (0:ℚ) ≤ 1/5),
          max_eq_left (by norm_num : (0:ℚ) ≤ 1/5)]
      · right; left
        rw [max_eq_right (by norm_num : (0:ℚ) ≤ 1/5),
          max_eq_left (by norm_num : (1/5:ℚ) ≤ 1/5)]
      · right; right
        rw [max_eq_right (by norm_num : (0:ℚ) ≤ 1/5),
          max_eq_right (by norm_num : (1/5:ℚ) ≤ 3/10)]
    · rw [if_neg hid]
      exact ih hl

/-- A record sharing company, city and state with the stored entity. -/
def c6Record : StdRecord :=
  { company := some (toCodes "ACME"),
    cityClean := some (toCodes "SPRINGFIELD"),
    stateClean := some (toCodes "IL") }

/-- A stored entity matching `c6Record` on both business signals. -/
def c6Entity : GoldenEntity :=
  { entityId := toCodes "E",
    masterCompany := some (toCodes "ACME"),
    masterCity := some (toCodes "SPRINGFIELD"),
    masterState := some (toCodes "IL") }

/-- C6 fails as stated on the streaming path: an entity matching both the
company (+0.3) and the location (+0.2) signals receives a business strategy
score of `0.3` — the maximum of the signals, not their sum `0.5`. -/
theorem c6_business_counterexample :
    bestStrategyScore (applyBusinessRules c6Record [c6Entity]) (toCodes "E")
      = 3/10 ∧ (3/10 : ℚ) ≠ 3/10 + 1/5 := by
  constructor
  · have h : applyBusinessRules c6Record [c6Entity] =
        [(toCodes "E", (3/10 : ℚ), "company"),
         (toCodes "E", (1/5 : ℚ), "location")] := rfl
    rw [h]
    unfold bestStrategyScore
    simp only [List.foldl_cons, List.foldl_nil, beq_self_eq_true, if_pos]
    rw [max_eq_right (by norm_num : (0:ℚ) ≤ 3/10),
      max_eq_left (by norm_num : (1/5:ℚ) ≤ 3/10)]
  · norm_num

/-- C6 amended: the batch business score is the SUM of the four signals and
is bounded by `1.0` (it can reach but never exceed `1.0`); the streaming
path carries only the company (`0.3`) and location (`0.2`) signals, and the
per-entity business strategy score is the MAXIMUM of a strategy's match
scores (so it is always `0`, `0.2` or `0.3`, never a sum). -/
theorem c6_business_amended :
    (∀ a b : BatchRecord, batchBusinessScore a b =
      sameCompanyScore a b + sameLocationScore a b +
        ageCompatibilityScore a b + incomeCompatibilityScore a b) ∧
    (∀ a b : BatchRecord, batchBusinessScore a b ≤ 1) ∧
    (∀ (ms1 ms2 : List (Str × ℚ × String)) (eid : Str),
      bestStrategyScore (ms1 ++ ms2) eid =
        max (bestStrategyScore ms1 eid) (bestStrategyScore ms2 eid)) ∧
    (∀ (r : StdRecord) (db : EntityStore) (eid : Str),
      bestStrategyScore (applyBusinessRules r db) eid = 0 ∨
      bestStrategyScore (applyBusinessRules r db) eid = 1/5 ∨
      bestStrategyScore (applyBusinessRules r db) eid = 3/10) := by
  refine ⟨fun a b => rfl, fun a b => ?_, bestStrategyScore_append,
    fun r db eid =>
      bestStrategyScore_mem _ eid (applyBusinessRules_scores r db)⟩
  have h1 : sameCompanyScore a b ≤ 3/10 := by
    unfold sameCompanyScore
    split <;> try split_ifs
    all_goals norm_num
  have h2 : sameLocationScore a b ≤ 1/5 := by
    unfold sameLocationScore
    split <;> try split_ifs
    all_goals norm_num
  have h3 : ageCompatibilityScore a b ≤ 2/5 := by
    unfold ageCompatibilityScore
    split <;> try split_ifs
    all_goals norm_num
  have h4 : incomeCompatibilityScore a b ≤ 1/10 := by
    unfold incomeCompatibilityScore
    split <;> try split_ifs
    all_goals norm_num
  unfold batchBusinessScore
  linarith

/-!  Claim C5: fuzzy scoring. -/

/-- The Levenshtein recurrence never exceeds the longer length (for every
fuel, thanks to the choice of the fuel-exhaustion fallback). -/
theorem levAux_le (fuel : Nat) :
    ∀ s t : Str, levAux fuel s t ≤ max s.length t.length := by
  induction fuel with
  | zero =>
    intro s t
    cases s <;> cases t <;> simp [levAux]
  | succ n ih =>
    intro s t
    cases s with
    | nil => simp [levAux]
    | cons a s' =>
      cases t with
      | nil => simp [levAux]
      | cons b t' =>
        simp only [levAux]
        by_cases hab : (a == b) = true
        · rw [if_pos hab]
          refine le_trans (ih s' t') ?_
          simp only [List.length_cons]
          exact max_le_max (Nat.le_succ _) (Nat.le_succ _)
        · rw [if_neg hab]
          have hmin : min (levAux n (a :: s') t')
              (min (levAux n s' (b :: t')) (levAux n s' t')) ≤
              levAux n s' t' :=
            le_trans (min_le_right _ _) (min_le_right _ _)
          have h3 := ih s' t'
          have hm := Nat.succ_max_succ s'.length t'.length
          simp only [List.length_cons]
          omega

/-- `EDIT_DISTANCE(s, t) ≤ GREATEST(LENGTH(s), LENGTH(t))`. -/
theorem levenshtein_le (s t : Str) :
    levenshtein s t ≤ max s.length t.length :=
  levAux_le (s.length + t.length) s t

/-- On non-empty strings the `max(0.0, ...)` clamp in
`calculate_string_similarity` is inert and the score is exactly
`1 − edit_distance / max(len1, len2)`. -/
theorem calculateStringSimilarity_eq (s t : Str) (hs : s ≠ []) (ht : t ≠ []) :
    calculateStringSimilarity s t =
      1 - (levenshtein s t : ℚ) / (max s.length t.length : ℚ) := by
  unfold calculateStringSimilarity
  rw [if_neg (by simp [hs, ht])]
  have hsl : 1 ≤ s.length := by
    cases s with
    | nil => exact absurd rfl hs
    | cons c cs => simp
  have hm : (0:ℚ) < (max s.length t.length : ℚ) := by
    have : (1:ℚ) ≤ (s.length : ℚ) := by exact_mod_cast hsl
    have h2 : (s.length : ℚ) ≤ max (s.length : ℚ) (t.length : ℚ) :=
      le_max_left _ _
    linarith
  have hd : (levenshtein s t : ℚ) ≤ (max s.length t.length : ℚ) := by
    have := levenshtein_le s t
    have h2 : ((levenshtein s t : ℕ) : ℚ) ≤ ((max s.length t.length : ℕ) : ℚ)
      := by exact_mod_cast this
    calc (levenshtein s t : ℚ) ≤ ((max s.length t.length : ℕ) : ℚ) := h2
      _ = max (s.length : ℚ) (t.length : ℚ) := by
          push_cast
          rfl
  have hdiv : (levenshtein s t : ℚ) / (max s.length t.length : ℚ) ≤ 1 :=
    (div_le_one hm).2 hd
  exact max_eq_right (by linarith)

/-- C5 fails as stated: "JON SMITH" vs "JOHN SMITH" has edit distance 1 and
maximum length 10, so the streaming name score is `0.9`, not `1 − 1/9`; and
the streaming combined fuzzy score of such a candidate (no address) is the
name score `0.9` itself — the maximum of name and address scores — not the
claimed average `(0.9 + 0)/2` of a three-way name maximum and the address
score. -/
theorem c5_fuzzy_counterexample :
    calculateStringSimilarity (toCodes "JON SMITH") (toCodes "JOHN SMITH")
      = 9/10 ∧
    (9/10 : ℚ) ≠ 1 - 1/9 ∧
    fuzzyRowScore { fullNameClean := some (toCodes "JON SMITH") }
      (some (toCodes "JOHN SMITH")) none = 9/10 ∧
    (9/10 : ℚ) ≠ (9/10 + 0) / 2 := by
  have h1 : levenshtein (toCodes "JON SMITH") (toCodes "JOHN SMITH") = 1 :=
    by decide
  have h2 : (toCodes "JON SMITH").length = 9 := by decide
  have h3 : (toCodes "JOHN SMITH").length = 10 := by decide
  have hsim : calculateStringSimilarity (toCodes "JON SMITH")
      (toCodes "JOHN SMITH") = 9/10 := by
    rw [calculateStringSimilarity_eq _ _ (by decide) (by decide), h1, h2, h3]
    rw [max_eq_right (by norm_num : ((9:ℕ):ℚ) ≤ ((10:ℕ):ℚ))]
    norm_num
  refine ⟨hsim, by norm_num, ?_, by norm_num⟩
  unfold fuzzyRowScore
  simp only [truthyOpt, Bool.false_and, Option.getD_some, Option.getD_none,
    Bool.and_eq_true, if_neg, Bool.false_eq_true, not_false_eq_true]
  rw [hsim]
  exact max_eq_left (by norm_num)

/-- C5 amended: the fuzzy name edit-distance score is
`1 − edit_distance / max(len1, len2)` on both paths ("JON SMITH" vs
"JOHN SMITH" scores `1 − 1/10 = 0.9`); the *batch* SQL combines the name
edit-distance, soundex and token sub-scores by maximum and averages that
maximum with the address edit-distance score; but the *streaming* path has
no phonetic or token sub-score, and combines as
`max(name_score, address_score)` per candidate. -/
theorem c5_fuzzy_amended :
    (∀ s t : Str, s ≠ [] → t ≠ [] →
      calculateStringSimilarity s t =
        1 - (levenshtein s t : ℚ) / (max s.length t.length : ℚ)) ∧
    calculateStringSimilarity (toCodes "JON SMITH") (toCodes "JOHN SMITH")
      = 1 - 1/10 ∧
    (∀ (r : StdRecord) (mn ma : Option Str),
      fuzzyRowScore r mn ma =
        max (calculateStringSimilarity (r.fullNameClean.getD [])
          (mn.getD []))
          (if truthyOpt r.addressClean && !(ma.getD []).isEmpty then
            calculateStringSimilarity (r.addressClean.getD []) (ma.getD [])
          else 0)) ∧
    (∀ a b : Option Str, nameFuzzyScore a b =
      max (max (nameEditDistanceScore a b) (nameSoundexScore a b))
        (nameTokenScore a b)) ∧
    (∀ na nb aa ab : Option Str, fuzzyOverallScore na nb aa ab =
      (nameFuzzyScore na nb + addressEditDistanceScore aa ab) / 2) ∧
    (∀ x y : Str, nameEditDistanceScore (some x) (some y) =
      1 - (levenshtein x y : ℚ) / (max x.length y.length : ℚ)) := by
  refine ⟨calculateStringSimilarity_eq, ?_, fun r mn ma => rfl,
    fun a b => rfl, fun na nb aa ab => rfl, fun x y => rfl⟩
  have h1 : levenshtein (toCodes "JON SMITH") (toCodes "JOHN SMITH") = 1 :=
    by decide
  have h2 : (toCodes "JON SMITH").length = 9 := by decide
  have h3 : (toCodes "JOHN SMITH").length = 10 := by decide
  rw [calculateStringSimilarity_eq _ _ (by decide) (by decide), h1, h2, h3]
  rw [max_eq_right (by norm_num : ((9:ℕ):ℚ) ≤ ((10:ℕ):ℚ))]
  norm_num

/-- Witness for C5: the edit-distance formula applied at the concrete pair
"JON SMITH" / "JOHN SMITH". -/
theorem c5_fuzzy_amended_witness :
    calculateStringSimilarity (toCodes "JON SMITH") (toCodes "JOHN SMITH") =
      1 - (levenshtein (toCodes "JON SMITH") (toCodes "JOHN SMITH") : ℚ) /
        (max (toCodes "JON SMITH").length (toCodes "JOHN SMITH").length : ℚ)
    :=
  (c5_fuzzy_amended).1 (toCodes "JON SMITH") (toCodes "JOHN SMITH")
    (by decide) (by decide)

/-!  Claim C9: idempotence of standardization.  Character-class lemmas. -/

theorem upperCode_idem (n : Nat) : upperCode (upperCode n) = upperCode n := by
  unfold upperCode isLowerCode
  split_ifs <;>
    simp only [Bool.and_eq_true, decide_eq_true_eq] at * <;> omega

theorem lowerCode_idem (n : Nat) : lowerCode (lowerCode n) = lowerCode n := by
  unfold lowerCode isUpperCode
  split_ifs <;>
    simp only [Bool.and_eq_true, decide_eq_true_eq] at * <;> omega

theorem isSpaceCode_upperCode (n : Nat) :
    isSpaceCode (upperCode n) = isSpaceCode n := by
  unfold upperCode
  split_ifs with h
  · unfold isLowerCode at h
    simp only [Bool.and_eq_true, decide_eq_true_eq] at h
    have h1 : isSpaceCode (n - 32) = false := by
      unfold isSpaceCode
      simp only [Bool.or_eq_false_iff, beq_eq_false_iff_ne]
      omega
    have h2 : isSpaceCode n = false := by
      unfold isSpaceCode
      simp only [Bool.or_eq_false_iff, beq_eq_false_iff_ne]
      omega
    rw [h1, h2]
  · rfl

theorem isSpaceCode_lowerCode (n : Nat) :
    isSpaceCode (lowerCode n) = isSpaceCode n := by
  unfold lowerCode
  split_ifs with h
  · unfold isUpperCode at h
    simp only [Bool.and_eq_true, decide_eq_true_eq] at h
    have h1 : isSpaceCode (n + 32) = false := by
      unfold isSpaceCode
      simp only [Bool.or_eq_false_iff, beq_eq_false_iff_ne]
      omega
    have h2 : isSpaceCode n = false := by
      unfold isSpaceCode
      simp only [Bool.or_eq_false_iff, beq_eq_false_iff_ne]
      omega
    rw [h1, h2]
  · rfl

theorem keep_upperCode (n : Nat)
    (h : (isAlphaCode n || isSpaceCode n) = true) :
    (isAlphaCode (upperCode n) || isSpaceCode (upperCode n)) = true := by
  unfold upperCode isAlphaCode isUpperCode isLowerCode isSpaceCode at *
  split_ifs with h1 <;>
    simp only [Bool.and_eq_true, Bool.or_eq_true, decide_eq_true_eq,
      beq_iff_eq] at * <;> omega

theorem isWordCode_not_space (n : Nat) (h : isWordCode n = true) :
    isSpaceCode n = false := by
  unfold isWordCode isAlphaCode isUpperCode isLowerCode isDigitCode
    isSpaceCode at *
  simp only [Bool.and_eq_true, Bool.or_eq_true, decide_eq_true_eq,
    beq_iff_eq] at *
  simp only [Bool.or_eq_false_iff, beq_eq_false_iff_ne]
  omega

/-!  Strip lemmas. -/

theorem dropWhile_idem (p : Nat → Bool) (l : Str) :
    List.dropWhile p (List.dropWhile p l) = List.dropWhile p l := by
  induction l with
  | nil => rfl
  | cons a l ih =>
    by_cases h : p a = true
    · rw [List.dropWhile_cons_of_pos h]; exact ih
    · rw [List.dropWhile_cons_of_neg h, List.dropWhile_cons_of_neg h]

theorem dropWhile_head_false (p : Nat → Bool) (l : Str) :
    l.dropWhile p = [] ∨
      ∃ a t, l.dropWhile p = a :: t ∧ p a = false := by
  induction l with
  | nil => left; rfl
  | cons a l ih =>
    by_cases h : p a = true
    · rw [List.dropWhile_cons_of_pos h]; exact ih
    · right
      exact ⟨a, l, List.dropWhile_cons_of_neg h, by
        simpa using h⟩

theorem dropWhile_append_split (p : Nat → Bool) (l₁ l₂ : Str) :
    (l₁ ++ l₂).dropWhile p =
      if (l₁.dropWhile p).isEmpty then l₂.dropWhile p
      else l₁.dropWhile p ++ l₂ := by
  induction l₁ with
  | nil => simp
  | cons a l ih =>
    by_cases h : p a = true
    · rw [List.cons_append, List.dropWhile_cons_of_pos h,
        List.dropWhile_cons_of_pos h, ih]
    · rw [List.cons_append, List.dropWhile_cons_of_neg h,
        List.dropWhile_cons_of_neg h]
      simp

/-- A stripped string has no leading and no trailing whitespace. -/
theorem pyStrip_spec (l : Str) :
    List.dropWhile isSpaceCode (pyStrip l) = pyStrip l ∧
    List.dropWhile isSpaceCode (pyStrip l).reverse = (pyStrip l).reverse
    := by
  unfold pyStrip
  rcases dropWhile_head_false isSpaceCode l with h | ⟨a, t, h, ha⟩
  · rw [h]; simp
  · rw [h, List.reverse_cons]
    have ha' : ¬ isSpaceCode a = true := by
      rw [ha]; exact Bool.false_ne_true
    rcases dropWhile_head_false isSpaceCode t.reverse with
      h2 | ⟨b, u, h2, hb⟩
    · rw [dropWhile_append_split, h2]
      simp only [List.isEmpty_nil, if_true]
      rw [List.dropWhile_cons_of_neg ha']
      constructor
      · simp [List.dropWhile_cons_of_neg ha']
      · simp [List.dropWhile_cons_of_neg ha']
    · have hb' : ¬ isSpaceCode b = true := by
        rw [hb]; exact Bool.false_ne_true
      rw [dropWhile_append_split, h2]
      simp only [List.isEmpty_cons, if_false, Bool.false_eq_true]
      rw [List.reverse_append, List.reverse_cons]
      simp only [List.reverse_nil, List.nil_append, List.singleton_append]
      constructor
      · rw [List.dropWhile_cons_of_neg ha']
      · rw [List.reverse_cons, List.reverse_reverse]
        rw [dropWhile_append_split]
        have h3 : List.dropWhile isSpaceCode (b :: u) = b :: u :=
          List.dropWhile_cons_of_neg hb'
        rw [h3]
        simp

theorem pyStrip_eq_self (l : Str)
    (h1 : List.dropWhile isSpaceCode l = l)
    (h2 : List.dropWhile isSpaceCode l.reverse = l.reverse) :
    pyStrip l = l := by
  unfold pyStrip
  rw [h1, h2, List.reverse_reverse]

theorem pyStrip_idem (l : Str) : pyStrip (pyStrip l) = pyStrip l :=
  pyStrip_eq_self _ (pyStrip_spec l).1 (pyStrip_spec l).2

theorem mem_pyStrip (l : Str) (c : Nat) (h : c ∈ pyStrip l) : c ∈ l := by
  unfold pyStrip at h
  rw [List.mem_reverse] at h
  have h2 := (List.dropWhile_sublist isSpaceCode).mem h
  rw [List.mem_reverse] at h2
  exact (List.dropWhile_sublist isSpaceCode).mem h2

/-!  Map commutation and idempotence. -/

theorem dropWhile_map_comm (f : Nat → Nat) (p : Nat → Bool)
    (h : ∀ n, p (f n) = p n) (l : Str) :
    List.dropWhile p (List.map f l) = List.map f (List.dropWhile p l) := by
  induction l with
  | nil => rfl
  | cons a l ih =>
    rw [List.map_cons, List.dropWhile_cons, List.dropWhile_cons, h a]
    by_cases ha : p a = true
    · rw [if_pos ha, if_pos ha, ih]
    · rw [if_neg ha, if_neg ha, List.map_cons]

theorem pyStrip_map_comm (f : Nat → Nat)
    (h : ∀ n, isSpaceCode (f n) = isSpaceCode n) (l : Str) :
    pyStrip (List.map f l) = List.map f (pyStrip l) := by
  unfold pyStrip
  rw [dropWhile_map_comm f isSpaceCode h, ← List.map_reverse,
    dropWhile_map_comm f isSpaceCode h, ← List.map_reverse]

theorem pyUpper_pyStrip_comm (l : Str) :
    pyUpper (pyStrip l) = pyStrip (pyUpper l) :=
  (pyStrip_map_comm upperCode isSpaceCode_upperCode l).symm

theorem pyLower_pyStrip_comm (l : Str) :
    pyLower (pyStrip l) = pyStrip (pyLower l) :=
  (pyStrip_map_comm lowerCode isSpaceCode_lowerCode l).symm

theorem pyUpper_pyUpper (l : Str) : pyUpper (pyUpper l) = pyUpper l := by
  unfold pyUpper
  rw [List.map_map]
  exact List.map_congr_left (fun a _ => upperCode_idem a)

theorem pyLower_pyLower (l : Str) : pyLower (pyLower l) = pyLower l := by
  unfold pyLower
  rw [List.map_map]
  exact List.map_congr_left (fun a _ => lowerCode_idem a)

/-!  Idempotence of the non-address field standardizers, both paths. -/

theorem cityClean_idem (x : Str) : cityClean (cityClean x) = cityClean x
    := by
  unfold cityClean
  rw [pyUpper_pyStrip_comm (pyUpper x), pyStrip_idem, pyUpper_pyUpper]

theorem emailClean_idem (x : Str) :
    emailClean (emailClean x) = emailClean x := by
  unfold emailClean
  rw [pyLower_pyStrip_comm (pyLower x), pyStrip_idem, pyLower_pyLower]

theorem sqlEmailClean_idem (x : Str) :
    sqlEmailClean (sqlEmailClean x) = sqlEmailClean x := by
  unfold sqlEmailClean
  rw [← pyLower_pyStrip_comm (pyStrip x), pyStrip_idem, pyLower_pyLower,
    pyLower_pyStrip_comm x]

theorem phoneClean_idem (x : Str) :
    phoneClean (phoneClean x) = phoneClean x := by
  unfold phoneClean
  exact List.filter_eq_self.2 (fun a ha => List.of_mem_filter ha)

theorem nameClean_idem (x : Str) : nameClean (nameClean x) = nameClean x
    := by
  have expand : ∀ y : Str, nameClean y = pyUpper (pyStrip
      (List.filter (fun c => isAlphaCode c || isSpaceCode c) y)) :=
    fun y => rfl
  have hkeep : ∀ c ∈ nameClean x,
      (isAlphaCode c || isSpaceCode c) = true := by
    intro c hc
    rw [expand x] at hc
    unfold pyUpper at hc
    rw [List.mem_map] at hc
    obtain ⟨d, hd, rfl⟩ := hc
    have hd2 := mem_pyStrip _ _ hd
    have hd3 := List.of_mem_filter hd2
    exact keep_upperCode d hd3
  rw [expand (nameClean x), List.filter_eq_self.2 hkeep, expand x]
  set y := List.filter (fun c => isAlphaCode c || isSpaceCode c) x
  rw [pyUpper_pyStrip_comm (pyUpper (pyStrip y)), pyUpper_pyUpper,
    ← pyUpper_pyStrip_comm (pyStrip y), pyStrip_idem]

theorem sqlNameClean_idem (x : Str) :
    sqlNameClean (sqlNameClean x) = sqlNameClean x := by
  have expand : ∀ y : Str, sqlNameClean y = pyStrip (pyUpper
      (List.filter (fun c => isAlphaCode c || isSpaceCode c) y)) :=
    fun y => rfl
  have hkeep : ∀ c ∈ sqlNameClean x,
      (isAlphaCode c || isSpaceCode c) = true := by
    intro c hc
    rw [expand x] at hc
    have hc2 := mem_pyStrip _ _ hc
    unfold pyUpper at hc2
    rw [List.mem_map] at hc2
    obtain ⟨d, hd, rfl⟩ := hc2
    have hd3 := List.of_mem_filter hd
    exact keep_upperCode d hd3
  rw [expand (sqlNameClean x), List.filter_eq_self.2 hkeep, expand x]
  set y := List.filter (fun c => isAlphaCode c || isSpaceCode c) x
  rw [pyUpper_pyStrip_comm (pyUpper y), pyStrip_idem, pyUpper_pyUpper]

/-!  Tokenizer lemmas. -/

theorem tokenize_flatten (l : Str) : (tokenize l).flatten = l := by
  induction l with
  | nil => rfl
  | cons c cs ih =>
    cases h : tokenize cs with
    | nil =>
      rw [h] at ih
      simp only [List.flatten_nil] at ih
      simp only [tokenize, h]
      simp only [List.flatten_cons, List.flatten_nil, List.append_nil]
      rw [← ih]
    | cons t ts =>
      rw [h] at ih
      simp only [tokenize, h]
      by_cases hc : (isWordCode c == isWordCode (t.headD 0)) = true
      · rw [if_pos hc]
        simp only [List.flatten_cons] at ih ⊢
        rw [List.cons_append, ih]
      · rw [if_neg hc]
        simp only [List.flatten_cons] at ih ⊢
        rw [List.singleton_append, ih]

theorem tokenize_ne_nil_mem (l : Str) : ∀ t ∈ tokenize l, t ≠ [] := by
  induction l with
  | nil => intro t ht; simp [tokenize] at ht
  | cons c cs ih =>
    intro t ht
    cases h : tokenize cs with
    | nil =>
      simp only [tokenize, h] at ht
      rw [List.mem_singleton] at ht
      subst ht
      simp
    | cons u us =>
      simp only [tokenize, h] at ht
      by_cases hc : (isWordCode c == isWordCode (u.headD 0)) = true
      · rw [if_pos hc] at ht
        rcases List.mem_cons.1 ht with rfl | hmem
        · simp
        · exact ih t (by rw [h]; exact List.mem_cons_of_mem u hmem)
      · rw [if_neg hc] at ht
        rcases List.mem_cons.1 ht with rfl | hmem
        · simp
        · exact ih t (by rw [h]; exact hmem)

theorem flatten_head?_eq (ts : List Str) (h : ∀ t ∈ ts, t ≠ []) :
    ts.flatten.head? = ts.head?.bind List.head? := by
  cases ts with
  | nil => rfl
  | cons t us =>
    rw [List.flatten_cons, List.head?_append]
    have ht : t ≠ [] := h t (List.mem_cons_self t us)
    cases t with
    | nil => exact absurd rfl ht
    | cons a t' => simp

theorem flatten_getLast?_eq (ts : List Str) (h : ∀ t ∈ ts, t ≠ []) :
    ts.flatten.getLast? = ts.getLast?.bind List.getLast? := by
  induction ts with
  | nil => rfl
  | cons t us ih =>
    cases us with
    | nil =>
      simp only [List.flatten_cons, List.flatten_nil, List.append_nil]
      simp
    | cons u vs =>
      rw [List.flatten_cons, List.getLast?_append]
      have hus : ∀ x ∈ u :: vs, x ≠ [] :=
        fun x hx => h x (List.mem_cons_of_mem t hx)
      rw [ih hus]
      obtain ⟨w, hw⟩ : ∃ w, (u :: vs).getLast? = some w := by
        cases hgl : (u :: vs).getLast? with
        | none =>
          rw [List.getLast?_eq_none_iff] at hgl
          exact absurd hgl (by simp)
        | some w => exact ⟨w, rfl⟩
      rw [hw]
      have hw2 : w ≠ [] := hus w (List.mem_of_mem_getLast? hw)
      cases hwl : w.getLast? with
      | none =>
        rw [List.getLast?_eq_none_iff] at hwl
        exact absurd hwl hw2
      | some d =>
        rw [List.getLast?_cons_cons, hw]
        simp [hwl, Option.or_some]

/-!  Word-boundary replacement lemmas. -/

theorem mem_replaceWord (pat rep l : Str) (c : Nat)
    (h : c ∈ replaceWord pat rep l) : c ∈ l ∨ c ∈ rep := by
  unfold replaceWord at h
  rw [List.mem_flatten] at h
  obtain ⟨t', ht', hc⟩ := h
  rw [List.mem_map] at ht'
  obtain ⟨t, ht, rfl⟩ := ht'
  by_cases hp : (t == pat) = true
  · rw [if_pos hp] at hc
    right; exact hc
  · rw [if_neg hp] at hc
    left
    rw [← tokenize_flatten l]
    exact List.mem_flatten.2 ⟨t, ht, hc⟩

theorem replaceWord_eq_self (pat rep l : Str)
    (h : ∀ t ∈ tokenize l, ¬ (t == pat) = true) :
    replaceWord pat rep l = l := by
  unfold replaceWord
  have hm : List.map (fun t => if t == pat then rep else t) (tokenize l) =
      List.map id (tokenize l) :=
    List.map_congr_left (fun t ht => if_neg (h t ht))
  rw [hm, List.map_id, tokenize_flatten]

/-- No leading and no trailing whitespace. -/
def noSpaceEdges (l : Str) : Prop :=
  (∀ c, l.head? = some c → isSpaceCode c = false) ∧
  (∀ c, l.getLast? = some c → isSpaceCode c = false)

theorem strip_of_noSpaceEdges (l : Str) (h : noSpaceEdges l) :
    pyStrip l = l := by
  apply pyStrip_eq_self
  · cases l with
    | nil => rfl
    | cons a t =>
      exact List.dropWhile_cons_of_neg
        (by rw [h.1 a rfl]; exact Bool.false_ne_true)
  · cases hl : l.reverse with
    | nil => rfl
    | cons a t =>
      have ha : l.getLast? = some a := by
        rw [← List.head?_reverse, hl]; rfl
      exact List.dropWhile_cons_of_neg
        (by rw [h.2 a ha]; exact Bool.false_ne_true)

theorem pyStrip_noSpaceEdges (l : Str) : noSpaceEdges (pyStrip l) := by
  constructor
  · intro c hc
    have hspec := (pyStrip_spec l).1
    cases hps : pyStrip l with
    | nil => rw [hps] at hc; simp at hc
    | cons a t =>
      rw [hps] at hc hspec
      rw [List.head?_cons] at hc
      obtain rfl : a = c := by injection hc
      by_contra hcon
      have hsp : isSpaceCode a = true := by
        cases hb : isSpaceCode a with
        | false => exact absurd hb hcon
        | true => rfl
      rw [List.dropWhile_cons_of_pos hsp] at hspec
      have hle := (List.dropWhile_sublist isSpaceCode (l := t)).length_le
      rw [hspec] at hle
      simp at hle
  · intro c hc
    have hspec := (pyStrip_spec l).2
    have hc' : (pyStrip l).reverse.head? = some c := by
      rw [List.head?_reverse]; exact hc
    cases hps : (pyStrip l).reverse with
    | nil => rw [hps] at hc'; simp at hc'
    | cons a t =>
      rw [hps] at hc' hspec
      rw [List.head?_cons] at hc'
      obtain rfl : a = c := by injection hc'
      by_contra hcon
      have hsp : isSpaceCode a = true := by
        cases hb : isSpaceCode a with
        | false => exact absurd hb hcon
        | true => rfl
      rw [List.dropWhile_cons_of_pos hsp] at hspec
      have hle := (List.dropWhile_sublist isSpaceCode (l := t)).length_le
      rw [hspec] at hle
      simp at hle

theorem replaceWord_noSpaceEdges (pat rep l : Str)
    (hrep : rep ≠ []) (hrepw : ∀ c ∈ rep, isWordCode c = true)
    (h : noSpaceEdges l) : noSpaceEdges (replaceWord pat rep l) := by
  have hne : ∀ t ∈ (tokenize l).map
      (fun t => if t == pat then rep else t), t ≠ [] := by
    intro t ht
    rw [List.mem_map] at ht
    obtain ⟨u, hu, rfl⟩ := ht
    by_cases hp : (u == pat) = true
    · rw [if_pos hp]; exact hrep
    · rw [if_neg hp]; exact tokenize_ne_nil_mem l u hu
  have hall : ∀ t ∈ tokenize l, t ≠ [] := tokenize_ne_nil_mem l
  constructor
  · intro c hc
    unfold replaceWord at hc
    rw [flatten_head?_eq _ hne, List.head?_map] at hc
    cases hts : (tokenize l).head? with
    | none => rw [hts] at hc; simp at hc
    | some t0 =>
      rw [hts] at hc
      simp only [Option.map_some', Option.some_bind] at hc
      by_cases hp : (t0 == pat) = true
      · rw [if_pos hp] at hc
        have hcr : c ∈ rep := List.mem_of_mem_head? (by rw [hc]; simp)
        exact isWordCode_not_space c (hrepw c hcr)
      · rw [if_neg hp] at hc
        have hlh : l.head? = some c := by
          have := flatten_head?_eq (tokenize l) hall
          rw [tokenize_flatten] at this
          rw [this, hts]
          simpa using hc
        exact h.1 c hlh
  · intro c hc
    unfold replaceWord at hc
    rw [flatten_getLast?_eq _ hne, List.getLast?_map] at hc
    cases hts : (tokenize l).getLast? with
    | none => rw [hts] at hc; simp at hc
    | some t0 =>
      rw [hts] at hc
      simp only [Option.map_some', Option.some_bind] at hc
      by_cases hp : (t0 == pat) = true
      · rw [if_pos hp] at hc
        have hcr : c ∈ rep := List.mem_of_mem_getLast? (by rw [hc]; simp)
        exact isWordCode_not_space c (hrepw c hcr)
      · rw [if_neg hp] at hc
        have hlh : l.getLast? = some c := by
          have := flatten_getLast?_eq (tokenize l) hall
          rw [tokenize_flatten] at this
          rw [this, hts]
          simpa using hc
        exact h.2 c hlh

/-!  Address idempotence. -/

/-- The five whole-word abbreviation patterns. -/
def addressPatterns : List Str :=
  [toCodes "STREET", toCodes "AVENUE", toCodes "BOULEVARD", toCodes "ROAD",
   toCodes "DRIVE"]

/-- The claim's premise "whole-word abbreviations already applied": no token
of the string equals one of the five patterns. -/
def noPatternTokens (z : Str) : Bool :=
  (tokenize z).all (fun t => !(addressPatterns.contains t))

theorem noPatternTokens_spec (z : Str) (h : noPatternTokens z = true) :
    ∀ t ∈ tokenize z, ∀ p ∈ addressPatterns, ¬ (t == p) = true := by
  intro t ht p hp hbeq
  rw [noPatternTokens, List.all_eq_true] at h
  have h2 := h t ht
  rw [beq_iff_eq] at hbeq
  subst hbeq
  rw [Bool.not_eq_true', ← Bool.not_eq_true] at h2
  exact h2 (List.elem_iff.2 hp)

theorem addressSubs_eq_self (z : Str) (h : noPatternTokens z = true) :
    addressSubs z = z := by
  have hs := noPatternTokens_spec z h
  unfold addressSubs
  rw [replaceWord_eq_self _ _ _
      (fun t ht => hs t ht (toCodes "STREET") (by simp [addressPatterns])),
    replaceWord_eq_self _ _ _
      (fun t ht => hs t ht (toCodes "AVENUE") (by simp [addressPatterns])),
    replaceWord_eq_self _ _ _
      (fun t ht => hs t ht (toCodes "BOULEVARD")
        (by simp [addressPatterns])),
    replaceWord_eq_self _ _ _
      (fun t ht => hs t ht (toCodes "ROAD") (by simp [addressPatterns])),
    replaceWord_eq_self _ _ _
      (fun t ht => hs t ht (toCodes "DRIVE") (by simp [addressPatterns]))]

theorem pyUpper_eq_self (l : Str) (h : ∀ c ∈ l, upperCode c = c) :
    pyUpper l = l :=
  (List.map_congr_left h).trans (List.map_id l)

theorem sqlAddressClean_idem (x : Str)
    (h : noPatternTokens (sqlAddressClean x) = true) :
    sqlAddressClean (sqlAddressClean x) = sqlAddressClean x := by
  have expand : ∀ y : Str,
      sqlAddressClean y = pyStrip (pyUpper (addressSubs y)) := fun _ => rfl
  rw [expand (sqlAddressClean x), addressSubs_eq_self _ h]
  have hupper : pyUpper (sqlAddressClean x) = sqlAddressClean x := by
    apply pyUpper_eq_self
    intro c hc
    rw [expand x] at hc
    have hc2 := mem_pyStrip _ _ hc
    unfold pyUpper at hc2
    rw [List.mem_map] at hc2
    obtain ⟨d, _, rfl⟩ := hc2
    exact upperCode_idem d
  rw [hupper, expand x, pyStrip_idem]

theorem addressClean_idem (x : Str)
    (h : noPatternTokens (addressClean x) = true) :
    addressClean (addressClean x) = addressClean x := by
  have expand : ∀ y : Str,
      addressClean y = addressSubs (pyStrip (pyUpper y)) := fun _ => rfl
  have hchars : ∀ c ∈ addressClean x, upperCode c = c := by
    intro c hc
    rw [expand x] at hc
    unfold addressSubs at hc
    have hbase : c ∈ pyStrip (pyUpper x) → upperCode c = c := by
      intro hc2
      have hc3 := mem_pyStrip _ _ hc2
      unfold pyUpper at hc3
      rw [List.mem_map] at hc3
      obtain ⟨d, _, rfl⟩ := hc3
      exact upperCode_idem d
    rcases mem_replaceWord _ _ _ _ hc with hc | hc
    · rcases mem_replaceWord _ _ _ _ hc with hc | hc
      · rcases mem_replaceWord _ _ _ _ hc with hc | hc
        · rcases mem_replaceWord _ _ _ _ hc with hc | hc
          · rcases mem_replaceWord _ _ _ _ hc with hc | hc
            · exact hbase hc
            · exact (by decide : ∀ c ∈ toCodes "ST", upperCode c = c) c hc
          · exact (by decide : ∀ c ∈ toCodes "AVE", upperCode c = c) c hc
        · exact (by decide : ∀ c ∈ toCodes "BLVD", upperCode c = c) c hc
      · exact (by decide : ∀ c ∈ toCodes "RD", upperCode c = c) c hc
    · exact (by decide : ∀ c ∈ toCodes "DR", upperCode c = c) c hc
  have hupper : pyUpper (addressClean x) = addressClean x :=
    pyUpper_eq_self _ hchars
  have hedges : noSpaceEdges (addressClean x) := by
    rw [expand x]
    unfold addressSubs
    apply replaceWord_noSpaceEdges _ _ _ (by decide) (by decide)
    apply replaceWord_noSpaceEdges _ _ _ (by decide) (by decide)
    apply replaceWord_noSpaceEdges _ _ _ (by decide) (by decide)
    apply replaceWord_noSpaceEdges _ _ _ (by decide) (by decide)
    apply replaceWord_noSpaceEdges _ _ _ (by decide) (by decide)
    exact pyStrip_noSpaceEdges _
  have hstrip : pyStrip (addressClean x) = addressClean x :=
    strip_of_noSpaceEdges _ hedges
  rw [expand (addressClean x), hupper, hstrip]
  exact addressSubs_eq_self _ h

/-- C9: standardization is idempotent on already-standardized output, on
both paths and for every field.  The name, email, phone, city and state
cleaners are unconditionally idempotent; re-cleaning a cleaned address is the
identity provided the whole-word abbreviations have already been applied (no
token equals STREET/AVENUE/BOULEVARD/ROAD/DRIVE), which is the claim's
premise.  (The premise matters for the batch SQL path, which substitutes
before upper-casing, so a lower-case "street" survives one pass.) -/
theorem c9_standardization_idempotent (x : Str) :
    nameClean (nameClean x) = nameClean x ∧
    emailClean (emailClean x) = emailClean x ∧
    phoneClean (phoneClean x) = phoneClean x ∧
    cityClean (cityClean x) = cityClean x ∧
    (noPatternTokens (addressClean x) = true →
      addressClean (addressClean x) = addressClean x) ∧
    sqlNameClean (sqlNameClean x) = sqlNameClean x ∧
    sqlEmailClean (sqlEmailClean x) = sqlEmailClean x ∧
    sqlPhoneClean (sqlPhoneClean x) = sqlPhoneClean x ∧
    sqlCityClean (sqlCityClean x) = sqlCityClean x ∧
    (noPatternTokens (sqlAddressClean x) = true →
      sqlAddressClean (sqlAddressClean x) = sqlAddressClean x) :=
  ⟨nameClean_idem x, emailClean_idem x, phoneClean_idem x, cityClean_idem x,
   addressClean_idem x, sqlNameClean_idem x, sqlEmailClean_idem x,
   phoneClean_idem x, cityClean_idem x, sqlAddressClean_idem x⟩

/-- Witness for C9 at concrete addresses whose cleaned forms carry the
abbreviations already applied. -/
theorem c9_standardization_idempotent_witness :
    addressClean (addressClean (toCodes " 123 Main Street ")) =
      addressClean (toCodes " 123 Main Street ") ∧
    sqlAddressClean (sqlAddressClean (toCodes "123 MAIN STREET")) =
      sqlAddressClean (toCodes "123 MAIN STREET") :=
  ⟨(c9_standardization_idempotent (toCodes " 123 Main Street ")).2.2.2.2.1
      (by decide),
   (c9_standardization_idempotent
      (toCodes "123 MAIN STREET")).2.2.2.2.2.2.2.2.2 (by decide)⟩

end Mdm
